import Mathlib

/-!
Verification of `scripts/slack_client.py`: the resumable export pipeline,
the tiered rate limiter and the digest aggregator, shallowly embedded in
Lean.  Time is modelled as exact rational seconds; Python dictionaries with
optional keys are modelled with `Option` fields; Python truthiness of
strings/`None` is modelled explicitly.
-/

namespace SlackClient

/-- Python truthiness of an optional string: `None` and `""` are falsy. -/
def strTruthy : Option String → Bool
  | none => false
  | some s => !s.isEmpty

/-- Python `a or b` on two optional strings (first truthy value, else `b`). -/
def pyOr (a b : Option String) : Option String :=
  if strTruthy a then a else b

/-- Python f-string interpolation of an optional string (`None` prints as `"None"`). -/
def fmtOpt : Option String → String
  | none => "None"
  | some s => s

/-- `dict.get(key, default)` over an association list keyed by strings. -/
def dictGetD (m : List (String × String)) (k : String) (d : String) : String :=
  match m.find? (fun p => p.1 == k) with
  | some p => p.2
  | none => d

/-- Python `sub in s` substring test, on the underlying character lists. -/
def pyContains (s sub : String) : Bool :=
  decide (sub.toList <:+: s.toList)

/-- Python `s.startswith(pre)`, by code points. -/
def pyStartsWith (s pre : String) : Bool :=
  List.isPrefixOf pre.toList s.toList

/-- Python `s[:n]`: slice of the first `n` code points. -/
def pyTake (s : String) (n : Nat) : String :=
  (s.toList.take n).asString

/-- Python `not s.strip()`: the string is empty or all whitespace. -/
def pyBlank (s : String) : Bool :=
  s.toList.all Char.isWhitespace

/-- Python `list.split(c)` for a single-character separator. -/
def splitOnChar (c : Char) : List Char → List (List Char)
  | [] => [[]]
  | x :: xs =>
    if x = c then [] :: splitOnChar c xs
    else
      match splitOnChar c xs with
      | [] => [[x]]
      | y :: ys => (x :: y) :: ys

-- ==================== Rate Limiter ====================

/-- `RateLimiter.TIER_3_LIMIT` (search). -/
def TIER_3_LIMIT : Nat := 35

/-- `RateLimiter.TIER_4_LIMIT` (replies). -/
def TIER_4_LIMIT : Nat := 70

/-- State of the `RateLimiter` class: per-tier call-timestamp windows, the
shared backoff deadline and the consecutive-429 counter.  Timestamps are
rational seconds. -/
structure RateLimiter where
  tier3_calls : List ℚ
  tier4_calls : List ℚ
  backoff_until : Option ℚ
  consecutive_429s : Nat
  deriving Repr, DecidableEq

/-- `RateLimiter.__init__`. -/
def RateLimiter.init : RateLimiter :=
  { tier3_calls := [], tier4_calls := [], backoff_until := none, consecutive_429s := 0 }

/-- `RateLimiter._prune_old_calls`: drop timestamps at or before `now - window`. -/
def prune_old_calls (now : ℚ) (calls : List ℚ) (window_seconds : ℚ := 60) : List ℚ :=
  calls.filter (fun t => now - window_seconds < t)

/-- `RateLimiter._handle_backoff`: sleep until the deadline if it is still in
the future (advancing `now`), clearing it; a deadline already in the past is
kept (the code clears it only inside the `if`). -/
def handle_backoff (now : ℚ) (b : Option ℚ) : ℚ × Option ℚ :=
  match b with
  | none => (now, none)
  | some t =>
    if now < t then
      let sleep_time := t - now
      ((if 0 < sleep_time then now + sleep_time else now), none)
    else (now, some t)

/-- Minimum of a nonempty list (Python `min`), with a dummy value on `[]`. -/
def listMinD : List ℚ → ℚ
  | [] => 0
  | x :: xs => xs.foldl min x

/-- The common body of `wait_for_tier3` / `wait_for_tier4`, acting on one
tier's window: handle backoff, prune, sleep out the oldest entry (+1 s) if the
window is at capacity, prune again, record the (possibly advanced) current
instant.  Returns the new now, window and backoff deadline. -/
def waitForTier (limit : Nat) (now : ℚ) (calls : List ℚ) (b : Option ℚ) :
    ℚ × List ℚ × Option ℚ :=
  let now1 := (handle_backoff now b).1
  let b1 := (handle_backoff now b).2
  let calls1 := prune_old_calls now1 calls
  let now2 :=
    if limit ≤ calls1.length then
      let oldest := listMinD calls1
      let sleep_time := 60 - (now1 - oldest) + 1
      if 0 < sleep_time then now1 + sleep_time else now1
    else now1
  let calls2 := if limit ≤ calls1.length then prune_old_calls now2 calls1 else calls1
  (now2, calls2 ++ [now2], b1)

/-- `RateLimiter.wait_for_tier3`: returns the instant at which the call is
recorded together with the updated limiter. -/
def RateLimiter.wait_for_tier3 (now : ℚ) (s : RateLimiter) : ℚ × RateLimiter :=
  let (now', calls', b') := waitForTier TIER_3_LIMIT now s.tier3_calls s.backoff_until
  (now', { s with tier3_calls := calls', backoff_until := b' })

/-- `RateLimiter.wait_for_tier4`. -/
def RateLimiter.wait_for_tier4 (now : ℚ) (s : RateLimiter) : ℚ × RateLimiter :=
  let (now', calls', b') := waitForTier TIER_4_LIMIT now s.tier4_calls s.backoff_until
  (now', { s with tier4_calls := calls', backoff_until := b' })

/-- `RateLimiter.handle_rate_limit_response(retry_after=None)`.  Note the
Python test `if retry_after:` treats `0` like `None` (falsy). -/
def RateLimiter.handle_rate_limit_response (now : ℚ) (retry_after : Option Int)
    (s : RateLimiter) : RateLimiter :=
  let n := s.consecutive_429s + 1
  let wait_seconds : ℚ :=
    match retry_after with
    | some r => if r ≠ 0 then (r : ℚ) else ((min (30 * 2 ^ (n - 1)) 300 : ℕ) : ℚ)
    | none => ((min (30 * 2 ^ (n - 1)) 300 : ℕ) : ℚ)
  { s with consecutive_429s := n, backoff_until := some (now + wait_seconds) }

/-- `RateLimiter.reset_backoff`: called after a successful request. -/
def RateLimiter.reset_backoff (s : RateLimiter) : RateLimiter :=
  { s with consecutive_429s := 0 }

/-- `n` consecutive `handle_rate_limit_response()` calls (no `retry_after`),
all issued at instant `now`, with no intervening `reset_backoff`. -/
def iterHandle (now : ℚ) : Nat → RateLimiter → RateLimiter
  | 0, s => s
  | n + 1, s => RateLimiter.handle_rate_limit_response now none (iterHandle now n s)

-- ==================== Data model ====================

/-- One block of a Slack message (`msg["blocks"]`), reduced to what the digest
reads: the `type` tag and the text that `block.get("text", {}).get("text", "")`
(dict case) or `str(block.get("text", {}))` (non-dict case) would yield. -/
structure Block where
  btype : String
  btext : String
  deriving Repr, DecidableEq

/-- A match returned by `search.messages` (fields read by the code; a missing
dictionary key is `none`, `text` defaults to `""` at every use site). -/
structure SMatch where
  channel_id : Option String
  channel_name : Option String
  ts : Option String
  thread_ts : Option String
  user : Option String
  username : Option String
  text : String
  permalink : Option String
  blocks : List Block
  deriving Repr, DecidableEq

/-- A message of a thread as returned by `conversations.replies`. -/
structure TMsg where
  user : Option String
  ts : Option String
  text : String
  deriving Repr, DecidableEq

/-- `search_progress` of the export state. -/
structure SearchProgress where
  total_matches : Nat
  current_page : Nat
  messages_fetched : Nat
  deriving Repr, DecidableEq

/-- `thread_progress` of the export state. -/
structure ThreadProgress where
  threads_pending : List String
  threads_fetched : List String
  current_index : Nat
  deriving Repr, DecidableEq

/-- A channel entry of `state["data"]["channels"]`. -/
structure ChannelMeta where
  id : String
  name : String
  ctype : String
  deriving Repr, DecidableEq

/-- A standalone message record appended by `_process_search_result`. -/
structure ExpMsg where
  ts : Option String
  channel_id : Option String
  user : Option String
  text : String
  is_user_message : Bool
  permalink : Option String
  deriving Repr, DecidableEq

/-- A message record inside a stored thread (`_store_thread_data`). -/
structure ThreadMsgRec where
  ts : Option String
  user : Option String
  text : String
  is_user_message : Bool
  deriving Repr, DecidableEq

/-- A `ThreadRecord` built by `_store_thread_data`. -/
structure ThreadData where
  thread_id : String
  channel_id : String
  thread_ts : String
  user_message_count : Nat
  total_message_count : Nat
  messages : List ThreadMsgRec
  deriving Repr, DecidableEq

/-- `state["data"]`: channels as an insertion-ordered association list. -/
structure ExportData where
  channels : List (String × ChannelMeta)
  threads : List ThreadData
  standalone_messages : List ExpMsg
  deriving Repr, DecidableEq

/-- An entry of the append-only `state["errors"]` log. -/
structure ErrEntry where
  etype : String
  thread : Option String
  details : Option String
  deriving Repr, DecidableEq

/-- The immutable `state["config"]` of an export job. -/
structure ExportConfig where
  from_date : String
  to_date : String
  output_file : String
  user_id : String
  username : String
  deriving Repr, DecidableEq

/-- The persisted export job state (`create_export_state` shape).  The opaque
`export_id` and wall-clock bookkeeping fields are not modelled. -/
structure ExportState where
  status : String
  config : ExportConfig
  search_progress : SearchProgress
  thread_progress : ThreadProgress
  data : ExportData
  errors : List ErrEntry
  api_calls : Nat
  deriving Repr, DecidableEq

/-- `create_export_state`. -/
def create_export_state (cfg : ExportConfig) : ExportState :=
  { status := "searching"
    config := cfg
    search_progress := { total_matches := 0, current_page := 1, messages_fetched := 0 }
    thread_progress := { threads_pending := [], threads_fetched := [], current_index := 0 }
    data := { channels := [], threads := [], standalone_messages := [] }
    errors := []
    api_calls := 0 }

-- ==================== Search-result processing ====================

/-- Maximal-munch `\d+\.\d+` at the head of `l` (group 1 of the permalink
regex), or `none`. -/
def matchTsAt (l : List Char) : Option (List Char) :=
  let d1 := l.takeWhile Char.isDigit
  let r1 := l.dropWhile Char.isDigit
  if d1.isEmpty then none
  else
    match r1 with
    | '.' :: r2 =>
      let d2 := r2.takeWhile Char.isDigit
      if d2.isEmpty then none else some (d1 ++ '.' :: d2)
    | _ => none

/-- Leftmost match of `thread_ts=(\d+\.\d+)` in a character list, returning
group 1 (the digits-dot-digits part). -/
def findThreadTs : List Char → Option (List Char)
  | [] => none
  | c :: rest =>
    if List.isPrefixOf "thread_ts=".toList (c :: rest) then
      match matchTsAt ((c :: rest).drop 10) with
      | some m => some m
      | none => findThreadTs rest
    else findThreadTs rest

/-- `re.search(r'thread_ts=(\d+\.\d+)', permalink)` with group extraction,
together with the guarding `"thread_ts=" in permalink` test. -/
def extractThreadTs (s : String) : Option String :=
  (findThreadTs s.toList).map List.asString

/-- `_infer_channel_type`. -/
def _infer_channel_type (channel_id : String) : String :=
  if pyStartsWith channel_id "C" then "channel"
  else if pyStartsWith channel_id "D" then "dm"
  else if pyStartsWith channel_id "G" then "group"
  else "unknown"

/-- The thread timestamp `_process_search_result` resolves for a match: the
match's own `thread_ts` when truthy, else the permalink extraction, else the
original falsy value. -/
def psrThreadTs (msg : SMatch) : Option String :=
  if strTruthy msg.thread_ts then msg.thread_ts
  else
    match extractThreadTs (msg.permalink.getD "") with
    | some t => some t
    | none => msg.thread_ts

/-- The channel-registration step of `_process_search_result` (lines guarded
by `if channel_id and channel_id not in state["data"]["channels"]`). -/
def _psr_register_channel (msg : SMatch) (st : ExportState) : ExportState :=
  match msg.channel_id with
  | some cid =>
    if strTruthy msg.channel_id ∧ (st.data.channels.find? (fun p => p.1 == cid)).isNone then
      { st with data := { st.data with channels := st.data.channels ++
          [(cid, { id := cid, name := msg.channel_name.getD "unknown",
                   ctype := _infer_channel_type cid })] } }
    else st
  | none => st

/-- `_process_search_result`: route one search match into the pending thread
set or the standalone list, registering its channel. -/
def _process_search_result (msg : SMatch) (st : ExportState) : ExportState :=
  let thread_ts := psrThreadTs msg
  let st := _psr_register_channel msg st
  if strTruthy thread_ts then
    let thread_key := fmtOpt msg.channel_id ++ ":" ++ fmtOpt thread_ts
    if st.thread_progress.threads_pending.contains thread_key then st
    else { st with thread_progress := { st.thread_progress with
             threads_pending := st.thread_progress.threads_pending ++ [thread_key] } }
  else
    { st with data := { st.data with standalone_messages := st.data.standalone_messages ++
        [{ ts := msg.ts, channel_id := msg.channel_id, user := pyOr msg.user msg.username,
           text := msg.text, is_user_message := true, permalink := msg.permalink }] } }

/-- `thread_key.split(":")` unpacked into exactly two parts; `none` models the
`ValueError` a key with a different number of parts would raise. -/
def splitKey (k : String) : Option (String × String) :=
  match (splitOnChar ':' k.toList).map List.asString with
  | [a, b] => some (a, b)
  | _ => none

/-- `_store_thread_data`: build a `ThreadRecord` from the fetched messages and
append it (the caller has already split the key, so the `none` branch is
unreachable from `run_export`). -/
def _store_thread_data (thread_key : String) (messages : List TMsg) (st : ExportState) :
    ExportState :=
  match splitKey thread_key with
  | none => st
  | some (cid, tts) =>
    let acc := messages.foldl
      (fun (acc : Nat × List ThreadMsgRec) m =>
        let is_user := m.user == some st.config.user_id
        ((if is_user then acc.1 + 1 else acc.1),
         acc.2 ++ [{ ts := m.ts, user := m.user, text := m.text, is_user_message := is_user }]))
      (0, [])
    { st with data := { st.data with threads := st.data.threads ++
        [{ thread_id := thread_key, channel_id := cid, thread_ts := tts,
           user_message_count := acc.1, total_message_count := messages.length,
           messages := acc.2 }] } }

-- ==================== Remote Message Source (export) ====================

/-- One `search.messages` page: `messages.matches`, `messages.total` and
`messages.paging.pages` (the code reads `paging.get("pages", 1)`). -/
structure SearchPage where
  page_matches : List SMatch
  total : Nat
  pages : Nat
  deriving Repr, DecidableEq

/-- Result of one paginated search call. -/
inductive SearchResp where
  | ok (page : SearchPage)
  | err (error : String)
  deriving Repr, DecidableEq

/-- Result of one `conversations.replies` call. -/
inductive ThreadResp where
  | ok (messages : List TMsg)
  | err (error : String)
  deriving Repr, DecidableEq

-- ==================== Export pipeline ====================

/-- Outcome of the `searching` phase loop. -/
inductive SearchOutcome where
  | done (st : ExportState) (now : ℚ) (rl : RateLimiter)
  | fatal (st : ExportState) (ename details : String)
  | nofuel
  deriving Repr, DecidableEq

/-- Process one search page: run every match through `_process_search_result`
and update `search_progress`. -/
def processPage (pg : SearchPage) (page : Nat) (st : ExportState) : ExportState :=
  let st := pg.page_matches.foldl (fun s m => _process_search_result m s) st
  { st with search_progress :=
      { total_matches := pg.total
        current_page := page
        messages_fetched := st.search_progress.messages_fetched + pg.page_matches.length } }

/-- Phase `searching` of `run_export`: the `while True` pagination loop.
`sOr` is the Remote Message Source's sequence of search results, indexed by
call number; a `ratelimited` error re-issues the same page.  `fuel` bounds the
number of iterations (the Python loop has no such bound). -/
def searchLoop (sOr : Nat → SearchResp) :
    Nat → Nat → Nat → ExportState → ℚ → RateLimiter → SearchOutcome
  | 0, _, _, _, _, _ => .nofuel
  | fuel + 1, callIdx, page, st, now, rl =>
    let (now, rl) := rl.wait_for_tier3 now
    let st := { st with api_calls := st.api_calls + 1 }
    match sOr callIdx with
    | .err e =>
      if e = "ratelimited" then
        searchLoop sOr fuel (callIdx + 1) page st now (rl.handle_rate_limit_response now none)
      else .fatal st "Exception" ("Search failed: " ++ e)
    | .ok pg =>
      let rl := rl.reset_backoff
      let st := processPage pg page st
      if pg.pages ≤ page then .done st now rl
      else searchLoop sOr fuel (callIdx + 1) (page + 1) st now rl

/-- Outcome of the `fetching_threads` phase loop. -/
inductive FetchOutcome where
  | done (st : ExportState) (now : ℚ) (rl : RateLimiter)
  | fatal (st : ExportState) (ename details : String)
  deriving Repr, DecidableEq

/-- Phase `fetching_threads` of `run_export`: one pass over `to_fetch`.  `tOr`
gives the Remote Message Source's reply for each thread key.  Note both error
`continue`s advance the `for` loop to the next key. -/
def fetchLoop (tOr : String → ThreadResp) :
    List String → Nat → ExportState → ℚ → RateLimiter → FetchOutcome
  | [], _, st, now, rl => .done st now rl
  | thread_key :: rest, i, st, now, rl =>
    match splitKey thread_key with
    | none => .fatal st "ValueError" ""
    | some _ =>
      let (now, rl) := rl.wait_for_tier4 now
      let st := { st with api_calls := st.api_calls + 1 }
      match tOr thread_key with
      | .err e =>
        if e = "ratelimited" then
          fetchLoop tOr rest (i + 1) st now (rl.handle_rate_limit_response now none)
        else if e = "thread_not_found" ∨ e = "channel_not_found" ∨ e = "not_in_channel" then
          let st := { st with
            thread_progress := { st.thread_progress with
              threads_fetched := st.thread_progress.threads_fetched ++ [thread_key] }
            errors := st.errors ++ [{ etype := e, thread := some thread_key, details := none }] }
          fetchLoop tOr rest (i + 1) st now rl
        else .fatal st "Exception" ("Thread fetch failed: " ++ e)
      | .ok msgs =>
        let rl := rl.reset_backoff
        let st := _store_thread_data thread_key msgs st
        let st := { st with thread_progress := { st.thread_progress with
            threads_fetched := st.thread_progress.threads_fetched ++ [thread_key]
            current_index := i + 1 } }
        fetchLoop tOr rest (i + 1) st now rl

/-- The deterministic content of the final export document written by
`_write_export_file` (the `exported_at` wall-clock stamp and the file write
itself are external effects and not part of the modelled artifact). -/
structure ExportOutput where
  workspace : String
  user_id : String
  username : String
  from_date : String
  to_date : String
  total_messages : Nat
  total_threads : Nat
  standalone_count : Nat
  channels_count : Nat
  api_calls : Nat
  users : List (String × String)
  channels : List (String × ChannelMeta)
  threads : List ThreadData
  standalone_messages : List ExpMsg
  deriving Repr, DecidableEq

/-- `_write_export_file`: assemble the final report from the state and the
display-name lookup. -/
def _write_export_file (user_lookup : List (String × String)) (workspace : String)
    (st : ExportState) : ExportOutput :=
  { workspace := workspace
    user_id := st.config.user_id
    username := st.config.username
    from_date := st.config.from_date
    to_date := st.config.to_date
    total_messages := st.search_progress.messages_fetched
    total_threads := st.data.threads.length
    standalone_count := st.data.standalone_messages.length
    channels_count := st.data.channels.length
    api_calls := st.api_calls
    users := user_lookup
    channels := st.data.channels
    threads := st.data.threads
    standalone_messages := st.data.standalone_messages }

/-- Result of a `run_export` invocation: the returned state, plus the written
document when phase `writing_output` ran. -/
inductive RunOutcome where
  | alreadyCompleted (st : ExportState)
  | finished (st : ExportState) (out : Option ExportOutput)
  | failed (st : ExportState)
  deriving Repr, DecidableEq

/-- Append the error entry the outer `except Exception` handler records before
re-raising. -/
def appendExc (st : ExportState) (ename details : String) : ExportState :=
  { st with errors := st.errors ++ [{ etype := ename, thread := none, details := some details }] }

/-- Phase `writing_output` and the final `return state`.  A status matching no
phase (e.g. `paused`) falls through and returns the state with no document. -/
def runPhase3 (user_lookup : List (String × String)) (workspace : String)
    (st : ExportState) : Option RunOutcome :=
  if st.status = "writing_output" then
    let out := _write_export_file user_lookup workspace st
    some (.finished { st with status := "completed" } (some out))
  else some (.finished st none)

/-- Phases `fetching_threads` and onward. -/
def runPhase23 (tOr : String → ThreadResp) (user_lookup : List (String × String))
    (workspace : String) (st : ExportState) (now : ℚ) (rl : RateLimiter) :
    Option RunOutcome :=
  if st.status = "fetching_threads" then
    match fetchLoop tOr (st.thread_progress.threads_pending.filter
        (fun t => !st.thread_progress.threads_fetched.contains t)) 0 st now rl with
    | .fatal s en ed => some (.failed (appendExc s en ed))
    | .done s _ _ => runPhase3 user_lookup workspace { s with status := "writing_output" }
  else runPhase3 user_lookup workspace st

/-- All three phases from a given state. -/
def runPhases (fuel : Nat) (sOr : Nat → SearchResp) (tOr : String → ThreadResp)
    (user_lookup : List (String × String)) (workspace : String)
    (st : ExportState) (now : ℚ) (rl : RateLimiter) : Option RunOutcome :=
  if st.status = "searching" then
    match searchLoop sOr fuel 0 st.search_progress.current_page st now rl with
    | .nofuel => none
    | .fatal s en ed => some (.failed (appendExc s en ed))
    | .done s now1 rl1 =>
      runPhase23 tOr user_lookup workspace { s with status := "fetching_threads" } now1 rl1
  else runPhase23 tOr user_lookup workspace st now rl

/-- `run_export`: auth is modelled as succeeding with the configured identity;
`stored` is the Export State Store's content for the workspace; a fresh
`RateLimiter` is created per invocation.  Returns `none` when `fuel` runs out
(the Python loop would still be running). -/
def run_export (fuel : Nat) (sOr : Nat → SearchResp) (tOr : String → ThreadResp)
    (user_lookup : List (String × String)) (workspace : String) (cfg : ExportConfig)
    (stored : Option ExportState) (resume : Bool) (now0 : ℚ) : Option RunOutcome :=
  let rl := RateLimiter.init
  match (if resume then stored else none) with
  | some st =>
    if st.status = "completed" then some (.alreadyCompleted st)
    else runPhases fuel sOr tOr user_lookup workspace st now0 rl
  | none => runPhases fuel sOr tOr user_lookup workspace (create_export_state cfg) now0 rl

/-- The Export State Store's content after the process is killed right after
phase `searching`: the checkpoint written at the `searching → fetching_threads`
transition (`none` when phase 1 did not complete normally). -/
def interruptAfterSearching (fuel : Nat) (sOr : Nat → SearchResp) (cfg : ExportConfig)
    (now0 : ℚ) : Option ExportState :=
  match searchLoop sOr fuel 0 (create_export_state cfg).search_progress.current_page
      (create_export_state cfg) now0 RateLimiter.init with
  | .done s _ _ => some { s with status := "fetching_threads" }
  | _ => none

-- ==================== Digest Aggregator ====================

/-- An entry of the digest's `mentions` list. -/
structure MentionEntry where
  workspace : String
  channel : String
  channel_id : Option String
  sender : Option String
  sender_id : Option String
  text : String
  ts : Option String
  permalink : Option String
  handled : Bool
  deriving Repr, DecidableEq

/-- An entry of the digest's `replies` list. -/
structure ReplyEntry where
  workspace : String
  channel : String
  channel_id : String
  sender : Option String
  sender_id : Option String
  text : String
  ts : Option String
  thread_ts : Option String
  deriving Repr, DecidableEq

/-- Per-workspace context of a digest pass: name, target identity and the
display-name cache lookup. -/
structure DigestCtx where
  ws_name : String
  user_id : String
  username : String
  user_lookup : List (String × String)
  deriving Repr, DecidableEq

/-- The digest accumulator threaded through `run_digest`: the run-scoped
`seen_message_ids` set, the two output lists, the summary counters, and the
shared `RateLimiter` with the current instant. -/
structure DigestAcc where
  seen : List String
  mentions : List MentionEntry
  replies : List ReplyEntry
  total_mentions : Nat
  unhandled_mentions : Nat
  total_replies : Nat
  now : ℚ
  rl : RateLimiter
  deriving Repr, DecidableEq

/-- `user_lookup.get(sender_id, sender_id)` where `sender_id` may be `None`. -/
def resolveName (lookup : List (String × String)) : Option String → Option String
  | none => none
  | some sid => some (dictGetD lookup sid sid)

/-- `float(msg.get("ts", 0))`: parse the timestamp string with the ambient
float-parse function `pf`, a missing key giving `0`. -/
def tsValOf (pf : String → ℚ) : Option String → ℚ
  | none => 0
  | some s => pf s

/-- The `for tmsg in thread_messages` loop that decides `user_replied`: scan
for a message by the target user strictly later than the mention, breaking at
the first hit. -/
def checkUserReplied (pf : String → ℚ) (user_id : String) (mention_ts : ℚ) :
    List TMsg → Bool
  | [] => false
  | t :: rest =>
    if t.user == some user_id then
      let reply_ts := tsValOf pf t.ts
      if mention_ts < reply_ts then true
      else checkUserReplied pf user_id mention_ts rest
    else checkUserReplied pf user_id mention_ts rest

/-- The block-fallback loop for empty message text: take the text of the first
`section` block whose text is non-empty (the running value is overwritten by
empty section texts along the way). -/
def blocksText : List Block → String → String
  | [], cur => cur
  | b :: rest, cur =>
    if b.btype == "section" then
      if b.btext.isEmpty then blocksText rest b.btext else b.btext
    else blocksText rest cur

/-- Message text with the blocks fallback: `msg.get("text", "")`, falling back
to the first text-bearing `section` block when blank (`.strip()` emptiness
modelled by `pyBlank`). -/
def mentionText (m : SMatch) : String :=
  if pyBlank m.text then blocksText m.blocks m.text else m.text

/-- Process one match of the mention search (`run_digest`, section 1): dedup
by `channel:ts`, skip self-authored, fetch the enclosing thread to decide
`handled`, and append a mention entry.  `tOr channel ts` is the Remote Message
Source's `conversations.replies` answer (`none` = not ok). -/
def processMentionMatch (pf : String → ℚ) (tOr : String → String → Option (List TMsg))
    (ctx : DigestCtx) (m : SMatch) (acc : DigestAcc) : DigestAcc :=
  let msg_id := fmtOpt m.channel_id ++ ":" ++ fmtOpt m.ts
  if acc.seen.contains msg_id then acc
  else
    let acc := { acc with seen := acc.seen ++ [msg_id] }
    if m.user == some ctx.user_id || m.username == some ctx.username then acc
    else
      let sender_id := pyOr m.user m.username
      let sender_name := resolveName ctx.user_lookup sender_id
      let mention_ts := tsValOf pf m.ts
      let thread_ts := pyOr m.thread_ts m.ts
      let channel_id := m.channel_id
      let fetched : Bool × DigestAcc :=
        if strTruthy channel_id ∧ strTruthy thread_ts then
          let acc := { acc with
            now := (acc.rl.wait_for_tier4 acc.now).1
            rl := (acc.rl.wait_for_tier4 acc.now).2 }
          match tOr (fmtOpt channel_id) (fmtOpt thread_ts) with
          | some thread_messages =>
            (checkUserReplied pf ctx.user_id mention_ts thread_messages, acc)
          | none => (false, acc)
        else (false, acc)
      let user_replied := fetched.1
      let acc := fetched.2
      let entry : MentionEntry :=
        { workspace := ctx.ws_name
          channel := m.channel_name.getD "unknown"
          channel_id := channel_id
          sender := sender_name
          sender_id := sender_id
          text := pyTake (mentionText m) 500
          ts := m.ts
          permalink := m.permalink
          handled := user_replied }
      { acc with
        mentions := acc.mentions ++ [entry]
        total_mentions := acc.total_mentions + 1
        unhandled_mentions := acc.unhandled_mentions + (if user_replied then 0 else 1) }

/-- Process one message of a fetched thread in the replies pass (`run_digest`,
section 2 inner loop): skip the user's own messages, filter to the lookback
window, dedup, and skip blank or join/leave notices. -/
def processThreadMsg (pf : String → ℚ) (ctx : DigestCtx) (from_time : ℚ)
    (channel_id channel_name : String) (thread_ts : Option String)
    (tm : TMsg) (acc : DigestAcc) : DigestAcc :=
  if tm.user == some ctx.user_id then acc
  else
    let tmsg_ts := tsValOf pf tm.ts
    if tmsg_ts < from_time then acc
    else
      let msg_id := channel_id ++ ":" ++ fmtOpt tm.ts
      if acc.seen.contains msg_id then acc
      else
        let acc := { acc with seen := acc.seen ++ [msg_id] }
        let sender_id := tm.user
        let sender_name := resolveName ctx.user_lookup sender_id
        let msg_text := tm.text
        if pyBlank msg_text then acc
        else if pyContains msg_text " has joined the channel" ||
                pyContains msg_text " has left the channel" then acc
        else
          { acc with
            replies := acc.replies ++
              [{ workspace := ctx.ws_name
                 channel := channel_name
                 channel_id := channel_id
                 sender := sender_name
                 sender_id := sender_id
                 text := pyTake msg_text 500
                 ts := tm.ts
                 thread_ts := thread_ts }]
            total_replies := acc.total_replies + 1 }

/-- Process one match of the target user's own-message search (`run_digest`,
section 2 outer loop): resolve the thread key, fetch the thread once per key
(`threads_checked`), and run the inner collection loop. -/
def processReplyMatch (pf : String → ℚ) (tOr : String → String → Option (List TMsg))
    (ctx : DigestCtx) (from_time : ℚ) (m : SMatch)
    (p : DigestAcc × List String) : DigestAcc × List String :=
  let (acc, threads_checked) := p
  let thread_ts := pyOr m.thread_ts m.ts
  let channel_id := m.channel_id
  let channel_name := m.channel_name.getD "unknown"
  if ¬ (strTruthy channel_id ∧ strTruthy thread_ts) then (acc, threads_checked)
  else
    let thread_key := fmtOpt channel_id ++ ":" ++ fmtOpt thread_ts
    if threads_checked.contains thread_key then (acc, threads_checked)
    else
      let threads_checked := threads_checked ++ [thread_key]
      let (now', rl') := acc.rl.wait_for_tier4 acc.now
      let acc := { acc with now := now', rl := rl' }
      match tOr (fmtOpt channel_id) (fmtOpt thread_ts) with
      | none => (acc, threads_checked)
      | some thread_messages =>
        let _user_last_ts := thread_messages.foldl
          (fun best t => if t.user == some ctx.user_id then max best (tsValOf pf t.ts) else best)
          (0 : ℚ)
        let acc := thread_messages.foldl
          (fun a tm =>
            processThreadMsg pf ctx from_time (fmtOpt channel_id) channel_name thread_ts tm a)
          acc
        (acc, threads_checked)

/-- The result of one of the digest's `search_messages` calls. -/
inductive DSearchResult where
  | ok (ms : List SMatch)
  | err (error : String)
  deriving Repr, DecidableEq

/-- One workspace iteration of `run_digest` (sections 1 and 2, after the auth
probe and cache warm-up): pace a tier-3 slot and consume the mention search
result (when `include_mentions`), then pace another slot and consume the
own-message search result.  A search whose `ok` is false is simply skipped. -/
def processWorkspace (pf : String → ℚ) (tOr : String → String → Option (List TMsg))
    (ctx : DigestCtx) (from_time : ℚ) (include_mentions : Bool)
    (mention_result user_msg_result : DSearchResult) (acc : DigestAcc) : DigestAcc :=
  let acc :=
    if include_mentions then
      let (now', rl') := acc.rl.wait_for_tier3 acc.now
      let acc := { acc with now := now', rl := rl' }
      match mention_result with
      | .ok ms => ms.foldl (fun a m => processMentionMatch pf tOr ctx m a) acc
      | .err _ => acc
    else acc
  let (now', rl') := acc.rl.wait_for_tier3 acc.now
  let acc := { acc with now := now', rl := rl' }
  match user_msg_result with
  | .ok ms => (ms.foldl (fun q m => processReplyMatch pf tOr ctx from_time m q) (acc, [])).1
  | .err _ => acc

/-- The accumulator at the start of `run_digest`: empty `seen_message_ids`,
empty output lists, zero counters, fresh `RateLimiter`. -/
def initDigestAcc (now0 : ℚ) : DigestAcc :=
  { seen := [], mentions := [], replies := [], total_mentions := 0,
    unhandled_mentions := 0, total_replies := 0, now := now0, rl := RateLimiter.init }

/-- `run_digest` restricted to a single workspace in scope. -/
def run_digest_ws (pf : String → ℚ) (tOr : String → String → Option (List TMsg))
    (ctx : DigestCtx) (from_time : ℚ) (include_mentions : Bool)
    (mention_result user_msg_result : DSearchResult) (now0 : ℚ) : DigestAcc :=
  processWorkspace pf tOr ctx from_time include_mentions mention_result user_msg_result
    (initDigestAcc now0)

-- ==================== Theorems: backoff (C4) ====================

lemma iterHandle_consec (now : ℚ) (s : RateLimiter) :
    ∀ n, (iterHandle now n s).consecutive_429s = s.consecutive_429s + n := by
  intro n
  induction n with
  | zero => rfl
  | succ k ih =>
    simp only [iterHandle, RateLimiter.handle_rate_limit_response, ih]
    omega

/-- C4 (amended): after `n ≥ 1` consecutive `handle_rate_limit_response` calls
with no `retry_after` and no intervening `reset_backoff`, the backoff deadline
is `now + min(30·2^(n-1), 300)` seconds (so the duration sequence
30, 60, 120, 240, 300, 300, … is non-decreasing); a *nonzero* `retry_after`
sets the deadline to `now + retry_after` instead (`retry_after = 0` is falsy
in Python and is treated as not supplied). -/
theorem backoff_sequence (now : ℚ) (s0 : RateLimiter) (n : Nat) (h1 : 1 ≤ n)
    (h0 : s0.consecutive_429s = 0) :
    (iterHandle now n s0).backoff_until
        = some (now + ((min (30 * 2 ^ (n - 1)) 300 : ℕ) : ℚ))
    ∧ (min (30 * 2 ^ (n - 1)) 300 : ℕ) ≤ (min (30 * 2 ^ ((n + 1) - 1)) 300 : ℕ)
    ∧ ∀ r : Int, r ≠ 0 →
        (RateLimiter.handle_rate_limit_response now (some r) s0).backoff_until
          = some (now + (r : ℚ)) := by
  refine ⟨?_, ?_, ?_⟩
  · obtain ⟨k, rfl⟩ : ∃ k, n = k + 1 := ⟨n - 1, by omega⟩
    show (RateLimiter.handle_rate_limit_response now none (iterHandle now k s0)).backoff_until = _
    simp only [RateLimiter.handle_rate_limit_response, iterHandle_consec, h0]
    norm_num
  · have h2 : 30 * 2 ^ (n - 1) ≤ 30 * 2 ^ ((n + 1) - 1) := by
      have : (2:ℕ) ^ (n - 1) ≤ 2 ^ ((n + 1) - 1) :=
        Nat.pow_le_pow_right (by norm_num) (by omega)
      omega
    omega
  · intro r hr
    simp only [RateLimiter.handle_rate_limit_response, if_pos hr]

/-- Witness for `backoff_sequence` at `n = 3`, `now = 0`, fresh limiter,
`retry_after = 7`: the third consecutive backoff is 120 s. -/
theorem backoff_sequence_witness :
    1 ≤ 3 ∧ RateLimiter.init.consecutive_429s = 0
    ∧ (iterHandle 0 3 RateLimiter.init).backoff_until
        = some ((0:ℚ) + ((min (30 * 2 ^ (3 - 1)) 300 : ℕ) : ℚ))
    ∧ (min (30 * 2 ^ (3 - 1)) 300 : ℕ) ≤ (min (30 * 2 ^ ((3 + 1) - 1)) 300 : ℕ)
    ∧ (RateLimiter.handle_rate_limit_response 0 (some 7) RateLimiter.init).backoff_until
        = some ((0:ℚ) + ((7:Int) : ℚ)) := by
  have h := backoff_sequence 0 RateLimiter.init 3 (by decide) (by decide)
  exact ⟨by decide, by decide, h.1, h.2.1, h.2.2 7 (by decide)⟩

/-- C4 counterexample to the claim as stated: supplying `retry_after = 0` does
*not* give deadline `now + retry_after`; the falsy `0` falls through to the
exponential branch (deadline `now + 30` on a fresh limiter). -/
theorem backoff_retry_after_zero_counterexample :
    (RateLimiter.handle_rate_limit_response 0 (some 0) RateLimiter.init).backoff_until
        ≠ some ((0:ℚ) + ((0:Int) : ℚ))
    ∧ (RateLimiter.handle_rate_limit_response 0 (some 0) RateLimiter.init).backoff_until
        = some 30 := by
  constructor
  · simp only [RateLimiter.handle_rate_limit_response, RateLimiter.init]
    norm_num
  · simp only [RateLimiter.handle_rate_limit_response, RateLimiter.init]
    norm_num

-- ==================== Theorems: reset_backoff frame (C10) ====================

lemma handle_backoff_fst_ge (now : ℚ) (b : Option ℚ) : now ≤ (handle_backoff now b).1 := by
  match b with
  | none => simp [handle_backoff]
  | some t =>
    simp only [handle_backoff]
    split
    · split <;> (simp; try linarith)
    · simp

lemma waitForTier_fst_ge_backoff (L : Nat) (now : ℚ) (calls : List ℚ) (b : Option ℚ) :
    (handle_backoff now b).1 ≤ (waitForTier L now calls b).1 := by
  simp only [waitForTier]
  split
  · split <;> (simp; try linarith)
  · simp

lemma handle_backoff_future (now t : ℚ) (h : now < t) :
    (handle_backoff now (some t)).1 = t := by
  simp only [handle_backoff, if_pos h]
  have h0 : (0:ℚ) < t - now := by linarith
  rw [if_pos h0]
  simp

/-- C10: `reset_backoff` zeroes only `consecutive_429s`, leaving both tier
windows and the `backoff_until` deadline untouched; consequently a deadline
set by an earlier rejection still delays the next `wait_for_tier3` /
`wait_for_tier4` call past the deadline even after an intervening success. -/
theorem reset_backoff_frame (s : RateLimiter) :
    s.reset_backoff = { s with consecutive_429s := 0 }
    ∧ s.reset_backoff.tier3_calls = s.tier3_calls
    ∧ s.reset_backoff.tier4_calls = s.tier4_calls
    ∧ s.reset_backoff.backoff_until = s.backoff_until
    ∧ s.reset_backoff.consecutive_429s = 0
    ∧ ∀ (now b : ℚ), s.backoff_until = some b → now < b →
        b ≤ (s.reset_backoff.wait_for_tier3 now).1
        ∧ b ≤ (s.reset_backoff.wait_for_tier4 now).1 := by
  refine ⟨rfl, rfl, rfl, rfl, rfl, ?_⟩
  intro now b hb hlt
  constructor
  · have h := waitForTier_fst_ge_backoff TIER_3_LIMIT now s.tier3_calls s.backoff_until
    rw [hb, handle_backoff_future now b hlt] at h
    simpa [RateLimiter.wait_for_tier3, RateLimiter.reset_backoff, hb] using h
  · have h := waitForTier_fst_ge_backoff TIER_4_LIMIT now s.tier4_calls s.backoff_until
    rw [hb, handle_backoff_future now b hlt] at h
    simpa [RateLimiter.wait_for_tier4, RateLimiter.reset_backoff, hb] using h

/-- Witness for `reset_backoff_frame`: a limiter with deadline 10, queried at
instant 3 after a success, still waits until instant 10. -/
theorem reset_backoff_frame_witness :
    (⟨[1], [2], some 10, 4⟩ : RateLimiter).backoff_until = some 10
    ∧ (3:ℚ) < 10
    ∧ (10:ℚ) ≤ ((⟨[1], [2], some 10, 4⟩ : RateLimiter).reset_backoff.wait_for_tier3 3).1 := by
  refine ⟨rfl, by norm_num, ?_⟩
  have h := (reset_backoff_frame ⟨[1], [2], some 10, 4⟩).2.2.2.2.2 3 10 rfl (by norm_num)
  exact h.1

-- ==================== Theorems: pacing invariant (C3) ====================

/-- Number of recorded instants inside the trailing 60-second window `(w-60, w]`. -/
def countWindow (l : List ℚ) (w : ℚ) : Nat :=
  l.countP (fun t => decide (w - 60 < t ∧ t ≤ w))

/-- One client step: let `gap` seconds elapse, then perform one limiter
operation (a paced tier-3 or tier-4 call, a rejection, or a success). -/
inductive PaceEvent where
  | call3 (gap : ℚ)
  | call4 (gap : ℚ)
  | reject (gap : ℚ) (retry_after : Option Int)
  | success (gap : ℚ)
  deriving Repr, DecidableEq

/-- The elapsed time preceding an event. -/
def PaceEvent.gap : PaceEvent → ℚ
  | .call3 g => g
  | .call4 g => g
  | .reject g _ => g
  | .success g => g

/-- Drive the limiter through a sequence of events, collecting the recorded
tier-3 and tier-4 call instants in order. -/
def runPaced : List PaceEvent → ℚ → RateLimiter → List ℚ × List ℚ
  | [], _, _ => ([], [])
  | .call3 g :: rest, now, s =>
    let r := s.wait_for_tier3 (now + g)
    let o := runPaced rest r.1 r.2
    (r.1 :: o.1, o.2)
  | .call4 g :: rest, now, s =>
    let r := s.wait_for_tier4 (now + g)
    let o := runPaced rest r.1 r.2
    (o.1, r.1 :: o.2)
  | .reject g ra :: rest, now, s =>
    runPaced rest (now + g) (s.handle_rate_limit_response (now + g) ra)
  | .success g :: rest, now, s => runPaced rest (now + g) s.reset_backoff

lemma countWindow_append (a b : List ℚ) (w : ℚ) :
    countWindow (a ++ b) w = countWindow a w + countWindow b w := by
  simp [countWindow, List.countP_append]

lemma countWindow_le_length (l : List ℚ) (w : ℚ) : countWindow l w ≤ l.length :=
  List.countP_le_length _

lemma countWindow_singleton (t w : ℚ) :
    countWindow [t] w = if w - 60 < t ∧ t ≤ w then 1 else 0 := by
  by_cases h : w - 60 < t ∧ t ≤ w <;> simp [countWindow, h]

lemma countWindow_prune (now w : ℚ) (l : List ℚ) (h : now ≤ w) :
    countWindow (prune_old_calls now l) w = countWindow l w := by
  unfold countWindow prune_old_calls
  rw [List.countP_filter]
  refine List.countP_congr ?_
  intro x _
  constructor
  · intro hx
    simp only [Bool.and_eq_true, decide_eq_true_eq] at hx ⊢
    exact hx.1
  · intro hx
    simp only [decide_eq_true_eq] at hx
    simp only [Bool.and_eq_true, decide_eq_true_eq]
    exact ⟨hx, by linarith [hx.1]⟩

lemma foldl_min_le_init (xs : List ℚ) : ∀ x : ℚ, xs.foldl min x ≤ x := by
  induction xs with
  | nil => intro x; simp
  | cons y ys ih =>
    intro x
    simpa using le_trans (ih (min x y)) (min_le_left x y)

lemma foldl_min_le_mem (xs : List ℚ) : ∀ (x y : ℚ), y ∈ xs → xs.foldl min x ≤ y := by
  induction xs with
  | nil => intro x y hy; cases hy
  | cons z zs ih =>
    intro x y hy
    rcases List.mem_cons.mp hy with rfl | hmem
    · simpa using le_trans (foldl_min_le_init zs (min x y)) (min_le_right x y)
    · simpa using ih (min x z) y hmem

lemma foldl_min_choice (xs : List ℚ) : ∀ x : ℚ, xs.foldl min x = x ∨ xs.foldl min x ∈ xs := by
  induction xs with
  | nil => intro x; left; rfl
  | cons y ys ih =>
    intro x
    simp only [List.foldl_cons]
    rcases ih (min x y) with h | h
    · rw [h]
      rcases le_total x y with hxy | hxy
      · left; exact min_eq_left hxy
      · right; rw [min_eq_right hxy]; exact List.mem_cons_self y ys
    · right; exact List.mem_cons_of_mem y h

lemma listMinD_mem (l : List ℚ) (h : l ≠ []) : listMinD l ∈ l := by
  match l with
  | x :: xs =>
    simp only [listMinD]
    rcases foldl_min_choice xs x with he | he
    · rw [he]; exact List.mem_cons_self x xs
    · exact List.mem_cons_of_mem x he

lemma listMinD_le (l : List ℚ) (y : ℚ) (hy : y ∈ l) : listMinD l ≤ y := by
  match l with
  | x :: xs =>
    simp only [listMinD]
    rcases List.mem_cons.mp hy with rfl | hmem
    · exact foldl_min_le_init xs y
    · exact foldl_min_le_mem xs x y hmem

lemma length_filter_lt_of_mem {α : Type} (l : List α) (p : α → Bool) (a : α)
    (ha : a ∈ l) (hpa : p a = false) : (l.filter p).length < l.length := by
  induction l with
  | nil => cases ha
  | cons x xs ih =>
    rcases List.mem_cons.mp ha with rfl | hmem
    · simp only [List.filter_cons, hpa, List.length_cons]
      exact Nat.lt_succ_of_le (List.length_filter_le p xs)
    · cases hx : p x
      · simp only [List.filter_cons, hx, List.length_cons]
        exact Nat.lt_succ_of_lt (ih hmem)
      · simp only [List.filter_cons, hx, List.length_cons]
        exact Nat.succ_lt_succ (ih hmem)

lemma mem_prune_gt (now : ℚ) (l : List ℚ) (t : ℚ) (h : t ∈ prune_old_calls now l) :
    now - 60 < t := by
  unfold prune_old_calls at h
  have := (List.mem_filter.mp h).2
  simpa using this

lemma prune_length_le (now : ℚ) (l : List ℚ) :
    (prune_old_calls now l).length ≤ l.length := List.length_filter_le _ _

lemma waitForTier_fst_ge (L : Nat) (now : ℚ) (calls : List ℚ) (b : Option ℚ) :
    now ≤ (waitForTier L now calls b).1 :=
  le_trans (handle_backoff_fst_ge now b) (waitForTier_fst_ge_backoff L now calls b)

lemma prune_after_sleep_len (n1 : ℚ) (c1 : List ℚ) (hne : c1 ≠ []) :
    (prune_old_calls (n1 + (60 - (n1 - listMinD c1) + 1)) c1).length < c1.length := by
  unfold prune_old_calls
  apply length_filter_lt_of_mem _ _ (listMinD c1) (listMinD_mem c1 hne)
  simp only [decide_eq_false_iff_not]
  intro h
  linarith

lemma waitForTier_len (L : Nat) (hL : 1 ≤ L) (now : ℚ) (calls : List ℚ) (b : Option ℚ)
    (hlen : calls.length ≤ L) :
    (waitForTier L now calls b).2.1.length ≤ L := by
  simp only [waitForTier]
  by_cases hcap : L ≤ (prune_old_calls (handle_backoff now b).1 calls).length
  · simp only [if_pos hcap]
    have hlenL : (prune_old_calls (handle_backoff now b).1 calls).length = L :=
      le_antisymm (le_trans (prune_length_le _ _) hlen) hcap
    have hne : prune_old_calls (handle_backoff now b).1 calls ≠ [] := by
      intro h
      rw [h] at hlenL
      simp at hlenL
      omega
    have hmem := listMinD_mem _ hne
    have hold := mem_prune_gt _ _ _ hmem
    have hS : 0 < 60 - ((handle_backoff now b).1
        - listMinD (prune_old_calls (handle_backoff now b).1 calls)) + 1 := by linarith
    simp only [if_pos hS]
    have hlt := prune_after_sleep_len (handle_backoff now b).1
      (prune_old_calls (handle_backoff now b).1 calls) hne
    rw [hlenL] at hlt
    simp only [List.length_append, List.length_cons, List.length_nil]
    omega
  · simp only [if_neg hcap]
    simp only [List.length_append, List.length_cons, List.length_nil]
    omega

lemma waitForTier_count (L : Nat) (now : ℚ) (calls : List ℚ) (b : Option ℚ) (w : ℚ)
    (hw : (waitForTier L now calls b).1 ≤ w) :
    countWindow (waitForTier L now calls b).2.1 w
      = countWindow calls w + countWindow [(waitForTier L now calls b).1] w := by
  simp only [waitForTier] at hw ⊢
  by_cases hcap : L ≤ (prune_old_calls (handle_backoff now b).1 calls).length
  · simp only [if_pos hcap] at hw ⊢
    have key : ∀ M : ℚ, (handle_backoff now b).1 ≤ M → M ≤ w →
        countWindow (prune_old_calls M (prune_old_calls (handle_backoff now b).1 calls)) w
          = countWindow calls w := by
      intro M h1 h2
      rw [countWindow_prune M w _ h2, countWindow_prune _ w _ (le_trans h1 h2)]
    have hM : (handle_backoff now b).1 ≤ (if 0 < 60 - ((handle_backoff now b).1
        - listMinD (prune_old_calls (handle_backoff now b).1 calls)) + 1 then
          (handle_backoff now b).1 + (60 - ((handle_backoff now b).1
            - listMinD (prune_old_calls (handle_backoff now b).1 calls)) + 1)
        else (handle_backoff now b).1) := by
      split
      · linarith
      · linarith
    rw [countWindow_append, key _ hM hw]
  · simp only [if_neg hcap] at hw ⊢
    rw [countWindow_append, countWindow_prune _ w _ hw]

lemma wait_step_inv (L : Nat) (hL : 1 ≤ L) (now : ℚ) (calls : List ℚ) (b : Option ℚ)
    (H : List ℚ) (hlen : calls.length ≤ L)
    (hP3 : ∀ w, countWindow H w ≤ L)
    (hP4 : ∀ w, now ≤ w → countWindow H w ≤ countWindow calls w) :
    now ≤ (waitForTier L now calls b).1
    ∧ (waitForTier L now calls b).2.1.length ≤ L
    ∧ (∀ w, countWindow (H ++ [(waitForTier L now calls b).1]) w ≤ L)
    ∧ (∀ w, (waitForTier L now calls b).1 ≤ w →
        countWindow (H ++ [(waitForTier L now calls b).1]) w
          ≤ countWindow (waitForTier L now calls b).2.1 w) := by
  have h1 : now ≤ (waitForTier L now calls b).1 := waitForTier_fst_ge L now calls b
  have h2 := waitForTier_len L hL now calls b hlen
  have hP4' : ∀ w, (waitForTier L now calls b).1 ≤ w →
      countWindow (H ++ [(waitForTier L now calls b).1]) w
        ≤ countWindow (waitForTier L now calls b).2.1 w := by
    intro w hw
    rw [countWindow_append, waitForTier_count L now calls b w hw]
    have := hP4 w (le_trans h1 hw)
    omega
  refine ⟨h1, h2, ?_, hP4'⟩
  intro w
  by_cases hwin : w - 60 < (waitForTier L now calls b).1 ∧ (waitForTier L now calls b).1 ≤ w
  · exact le_trans (le_trans (hP4' w hwin.2) (countWindow_le_length _ w)) h2
  · rw [countWindow_append, countWindow_singleton, if_neg hwin]
    have := hP3 w
    omega

lemma wait3_fst (now : ℚ) (s : RateLimiter) :
    (s.wait_for_tier3 now).1 = (waitForTier TIER_3_LIMIT now s.tier3_calls s.backoff_until).1 :=
  rfl

lemma wait3_t3 (now : ℚ) (s : RateLimiter) :
    (s.wait_for_tier3 now).2.tier3_calls
      = (waitForTier TIER_3_LIMIT now s.tier3_calls s.backoff_until).2.1 := rfl

lemma wait3_t4 (now : ℚ) (s : RateLimiter) :
    (s.wait_for_tier3 now).2.tier4_calls = s.tier4_calls := rfl

lemma wait4_fst (now : ℚ) (s : RateLimiter) :
    (s.wait_for_tier4 now).1 = (waitForTier TIER_4_LIMIT now s.tier4_calls s.backoff_until).1 :=
  rfl

lemma wait4_t4 (now : ℚ) (s : RateLimiter) :
    (s.wait_for_tier4 now).2.tier4_calls
      = (waitForTier TIER_4_LIMIT now s.tier4_calls s.backoff_until).2.1 := rfl

lemma wait4_t3 (now : ℚ) (s : RateLimiter) :
    (s.wait_for_tier4 now).2.tier3_calls = s.tier3_calls := rfl

lemma runPaced_window_aux (evs : List PaceEvent) :
    ∀ (now : ℚ) (s : RateLimiter) (H3 H4 : List ℚ),
      (∀ e ∈ evs, 0 ≤ e.gap) →
      s.tier3_calls.length ≤ TIER_3_LIMIT →
      s.tier4_calls.length ≤ TIER_4_LIMIT →
      (∀ w, countWindow H3 w ≤ TIER_3_LIMIT) →
      (∀ w, countWindow H4 w ≤ TIER_4_LIMIT) →
      (∀ w, now ≤ w → countWindow H3 w ≤ countWindow s.tier3_calls w) →
      (∀ w, now ≤ w → countWindow H4 w ≤ countWindow s.tier4_calls w) →
      ∀ w, countWindow (H3 ++ (runPaced evs now s).1) w ≤ TIER_3_LIMIT
         ∧ countWindow (H4 ++ (runPaced evs now s).2) w ≤ TIER_4_LIMIT := by
  induction evs with
  | nil =>
    intro now s H3 H4 _ _ _ p3 p4 _ _ w
    simpa [runPaced] using ⟨p3 w, p4 w⟩
  | cons e rest ih =>
    intro now s H3 H4 hg h3 h4 p3 p4 q3 q4 w
    have hg0 : 0 ≤ e.gap := hg e (List.mem_cons_self e rest)
    have hgrest : ∀ e' ∈ rest, 0 ≤ e'.gap := fun e' he' => hg e' (List.mem_cons_of_mem e he')
    cases e with
    | call3 g =>
      simp only [runPaced]
      have step := wait_step_inv TIER_3_LIMIT (by decide) (now + g) s.tier3_calls
        s.backoff_until H3 h3 p3
        (fun w' hw' => q3 w' (by simp only [PaceEvent.gap] at hg0; linarith))
      have key := ih (s.wait_for_tier3 (now + g)).1 (s.wait_for_tier3 (now + g)).2
        (H3 ++ [(s.wait_for_tier3 (now + g)).1]) H4 hgrest
        step.2.1
        h4
        step.2.2.1
        p4
        step.2.2.2
        (by
          intro w' hw'
          refine q4 w' ?_
          have hw2 : (waitForTier TIER_3_LIMIT (now + g) s.tier3_calls s.backoff_until).1
              ≤ w' := hw'
          have hge := waitForTier_fst_ge TIER_3_LIMIT (now + g) s.tier3_calls s.backoff_until
          simp only [PaceEvent.gap] at hg0
          linarith)
        w
      rw [List.append_cons H3 (s.wait_for_tier3 (now + g)).1]
      exact key
    | call4 g =>
      simp only [runPaced]
      have step := wait_step_inv TIER_4_LIMIT (by decide) (now + g) s.tier4_calls
        s.backoff_until H4 h4 p4
        (fun w' hw' => q4 w' (by simp only [PaceEvent.gap] at hg0; linarith))
      have key := ih (s.wait_for_tier4 (now + g)).1 (s.wait_for_tier4 (now + g)).2
        H3 (H4 ++ [(s.wait_for_tier4 (now + g)).1]) hgrest
        h3
        step.2.1
        p3
        step.2.2.1
        (by
          intro w' hw'
          refine q3 w' ?_
          have hw2 : (waitForTier TIER_4_LIMIT (now + g) s.tier4_calls s.backoff_until).1
              ≤ w' := hw'
          have hge := waitForTier_fst_ge TIER_4_LIMIT (now + g) s.tier4_calls s.backoff_until
          simp only [PaceEvent.gap] at hg0
          linarith)
        step.2.2.2
        w
      rw [List.append_cons H4 (s.wait_for_tier4 (now + g)).1]
      exact ⟨key.1, key.2⟩
    | reject g ra =>
      simp only [runPaced]
      refine ih (now + g) (s.handle_rate_limit_response (now + g) ra) H3 H4
        hgrest h3 h4 p3 p4 ?_ ?_ w
      · intro w' hw'
        refine q3 w' ?_
        simp only [PaceEvent.gap] at hg0
        linarith
      · intro w' hw'
        refine q4 w' ?_
        simp only [PaceEvent.gap] at hg0
        linarith
    | success g =>
      simp only [runPaced]
      refine ih (now + g) s.reset_backoff H3 H4 hgrest h3 h4 p3 p4 ?_ ?_ w
      · intro w' hw'
        refine q3 w' ?_
        simp only [PaceEvent.gap] at hg0
        linarith
      · intro w' hw'
        refine q4 w' ?_
        simp only [PaceEvent.gap] at hg0
        linarith

/-- C3: for every event sequence with non-negative gaps (tier-3 and tier-4
calls paced through `wait_for_tier3` / `wait_for_tier4`, with arbitrary
interleaved rejections and successes), no trailing 60-second window of the
recorded call instants of a tier contains more than that tier's ceiling
(35 for tier 3, 70 for tier 4). -/
theorem pacing_invariant (evs : List PaceEvent) (now0 : ℚ)
    (hg : ∀ e ∈ evs, 0 ≤ e.gap) (w : ℚ) :
    countWindow (runPaced evs now0 RateLimiter.init).1 w ≤ TIER_3_LIMIT
    ∧ countWindow (runPaced evs now0 RateLimiter.init).2 w ≤ TIER_4_LIMIT := by
  have h := runPaced_window_aux evs now0 RateLimiter.init [] [] hg
    (by simp [RateLimiter.init])
    (by simp [RateLimiter.init])
    (by intro w'; simp [countWindow])
    (by intro w'; simp [countWindow])
    (by intro w' _; simp [countWindow])
    (by intro w' _; simp [countWindow])
    w
  simpa using h

/-- Witness for `pacing_invariant`: three paced tier-3 calls, one paced
tier-4 call and a rejection, starting at instant 0, window ending at 30. -/
theorem pacing_invariant_witness :
    (∀ e ∈ [PaceEvent.call3 0, PaceEvent.call3 1, PaceEvent.call4 0,
            PaceEvent.reject 0 none, PaceEvent.call3 2], 0 ≤ e.gap)
    ∧ countWindow (runPaced [PaceEvent.call3 0, PaceEvent.call3 1, PaceEvent.call4 0,
        PaceEvent.reject 0 none, PaceEvent.call3 2] 0 RateLimiter.init).1 30 ≤ TIER_3_LIMIT
    ∧ countWindow (runPaced [PaceEvent.call3 0, PaceEvent.call3 1, PaceEvent.call4 0,
        PaceEvent.reject 0 none, PaceEvent.call3 2] 0 RateLimiter.init).2 30 ≤ TIER_4_LIMIT := by
  have h := pacing_invariant [PaceEvent.call3 0, PaceEvent.call3 1, PaceEvent.call4 0,
    PaceEvent.reject 0 none, PaceEvent.call3 2] 0 (by decide) 30
  exact ⟨by decide, h.1, h.2⟩

-- ==================== Theorems: idempotent resume (C1) ====================

/-- The data content of a fetch-phase outcome (forgetting pacing state). -/
def FetchOutcome.proj : FetchOutcome → ExportState × Option (String × String)
  | .done s _ _ => (s, none)
  | .fatal s en ed => (s, some (en, ed))

/-- The data content of a search-phase outcome (forgetting pacing state). -/
def SearchOutcome.proj : SearchOutcome → Option (ExportState × Option (String × String))
  | .done s _ _ => some (s, none)
  | .fatal s en ed => some (s, some (en, ed))
  | .nofuel => none

/-- The thread-fetch phase computes the same states and errors regardless of
the pacing state it starts from (the limiter only delays calls). -/
lemma fetchLoop_proj_indep (tOr : String → ThreadResp) (keys : List String) :
    ∀ (i : Nat) (st : ExportState) (now now' : ℚ) (rl rl' : RateLimiter),
      (fetchLoop tOr keys i st now rl).proj = (fetchLoop tOr keys i st now' rl').proj := by
  induction keys with
  | nil => intros; rfl
  | cons k rest ih =>
    intro i st now now' rl rl'
    simp only [fetchLoop]
    cases hsplit : splitKey k with
    | none => rfl
    | some p =>
      cases hor : tOr k with
      | ok msgs => exact ih _ _ _ _ _ _
      | err e =>
        by_cases h1 : e = "ratelimited"
        · simp only [if_pos h1]
          exact ih _ _ _ _ _ _
        · by_cases h2 : e = "thread_not_found" ∨ e = "channel_not_found" ∨ e = "not_in_channel"
          · simp only [if_neg h1, if_pos h2]
            exact ih _ _ _ _ _ _
          · simp only [if_neg h1, if_neg h2]

/-- The search phase computes the same states and errors regardless of the
pacing state it starts from. -/
lemma searchLoop_proj_indep (sOr : Nat → SearchResp) :
    ∀ (fuel callIdx page : Nat) (st : ExportState) (now now' : ℚ) (rl rl' : RateLimiter),
      (searchLoop sOr fuel callIdx page st now rl).proj
        = (searchLoop sOr fuel callIdx page st now' rl').proj := by
  intro fuel
  induction fuel with
  | zero => intros; rfl
  | succ f ih =>
    intro callIdx page st now now' rl rl'
    simp only [searchLoop]
    cases hor : sOr callIdx with
    | err e =>
      by_cases h1 : e = "ratelimited"
      · simp only [if_pos h1]
        exact ih _ _ _ _ _ _ _
      · simp only [if_neg h1]
    | ok pg =>
      by_cases h2 : pg.pages ≤ page
      · simp only [if_pos h2]
        rfl
      · simp only [if_neg h2]
        exact ih _ _ _ _ _ _ _

/-- Phases 2–3 compute the same outcome regardless of the pacing state. -/
lemma runPhase23_indep (tOr : String → ThreadResp) (user_lookup : List (String × String))
    (workspace : String) (st : ExportState) (now now' : ℚ) (rl rl' : RateLimiter) :
    runPhase23 tOr user_lookup workspace st now rl
      = runPhase23 tOr user_lookup workspace st now' rl' := by
  unfold runPhase23
  by_cases hst : st.status = "fetching_threads"
  · simp only [if_pos hst]
    have hproj := fetchLoop_proj_indep tOr
      (st.thread_progress.threads_pending.filter
        (fun t => !st.thread_progress.threads_fetched.contains t)) 0 st now now' rl rl'
    cases h1 : fetchLoop tOr (st.thread_progress.threads_pending.filter
        (fun t => !st.thread_progress.threads_fetched.contains t)) 0 st now rl with
    | done s1 n1 r1 =>
      cases h2 : fetchLoop tOr (st.thread_progress.threads_pending.filter
          (fun t => !st.thread_progress.threads_fetched.contains t)) 0 st now' rl' with
      | done s2 n2 r2 =>
        rw [h1, h2] at hproj
        simp only [FetchOutcome.proj, Prod.mk.injEq] at hproj
        rw [hproj.1]
      | fatal s2 en2 ed2 =>
        rw [h1, h2] at hproj
        simp [FetchOutcome.proj] at hproj
    | fatal s1 en1 ed1 =>
      cases h2 : fetchLoop tOr (st.thread_progress.threads_pending.filter
          (fun t => !st.thread_progress.threads_fetched.contains t)) 0 st now' rl' with
      | done s2 n2 r2 =>
        rw [h1, h2] at hproj
        simp [FetchOutcome.proj] at hproj
      | fatal s2 en2 ed2 =>
        rw [h1, h2] at hproj
        simp only [FetchOutcome.proj, Prod.mk.injEq, Option.some.injEq] at hproj
        rw [hproj.1, hproj.2.1, hproj.2.2]
  · simp only [if_neg hst]

/-- The whole pipeline computes the same outcome regardless of the pacing
state it starts from. -/
lemma runPhases_indep (fuel : Nat) (sOr : Nat → SearchResp) (tOr : String → ThreadResp)
    (user_lookup : List (String × String)) (workspace : String) (st : ExportState)
    (now now' : ℚ) (rl rl' : RateLimiter) :
    runPhases fuel sOr tOr user_lookup workspace st now rl
      = runPhases fuel sOr tOr user_lookup workspace st now' rl' := by
  unfold runPhases
  by_cases hst : st.status = "searching"
  · simp only [if_pos hst]
    have hproj := searchLoop_proj_indep sOr fuel 0 st.search_progress.current_page st
      now now' rl rl'
    cases h1 : searchLoop sOr fuel 0 st.search_progress.current_page st now rl with
    | done s1 n1 r1 =>
      cases h2 : searchLoop sOr fuel 0 st.search_progress.current_page st now' rl' with
      | done s2 n2 r2 =>
        rw [h1, h2] at hproj
        simp only [SearchOutcome.proj, Option.some.injEq, Prod.mk.injEq] at hproj
        rw [hproj.1]
        exact runPhase23_indep tOr user_lookup workspace _ n1 n2 r1 r2
      | fatal s2 en2 ed2 =>
        rw [h1, h2] at hproj
        simp [SearchOutcome.proj] at hproj
      | nofuel =>
        rw [h1, h2] at hproj
        simp [SearchOutcome.proj] at hproj
    | fatal s1 en1 ed1 =>
      cases h2 : searchLoop sOr fuel 0 st.search_progress.current_page st now' rl' with
      | done s2 n2 r2 =>
        rw [h1, h2] at hproj
        simp [SearchOutcome.proj] at hproj
      | fatal s2 en2 ed2 =>
        rw [h1, h2] at hproj
        simp only [SearchOutcome.proj, Option.some.injEq, Prod.mk.injEq] at hproj
        rw [hproj.1, hproj.2.1, hproj.2.2]
      | nofuel =>
        rw [h1, h2] at hproj
        simp [SearchOutcome.proj] at hproj
    | nofuel =>
      cases h2 : searchLoop sOr fuel 0 st.search_progress.current_page st now' rl' with
      | done s2 n2 r2 =>
        rw [h1, h2] at hproj
        simp [SearchOutcome.proj] at hproj
      | fatal s2 en2 ed2 =>
        rw [h1, h2] at hproj
        simp [SearchOutcome.proj] at hproj
      | nofuel => rfl
  · simp only [if_neg hst]
    exact runPhase23_indep tOr user_lookup workspace st now now' rl rl'

/-- C1: for the same sequence of Remote Message Source results, running the
export to completion in one uninterrupted pass and interrupting it right after
phase `searching` (at the checkpoint written for the
`searching → fetching_threads` transition) and resuming with `resume = true`
produce identical outcomes — in particular the same final thread list,
standalone messages and counts — and the resumed run redoes no search work
(it starts from the checkpointed state, whatever wall-clock instants the runs
begin at). -/
theorem export_resume_equivalence (fuel : Nat) (sOr : Nat → SearchResp)
    (tOr : String → ThreadResp) (user_lookup : List (String × String))
    (workspace : String) (cfg : ExportConfig) (nowA nowB nowC : ℚ) :
    run_export fuel sOr tOr user_lookup workspace cfg none false nowA
      = run_export fuel sOr tOr user_lookup workspace cfg
          (interruptAfterSearching fuel sOr cfg nowC) true nowB := by
  have step1 : run_export fuel sOr tOr user_lookup workspace cfg none false nowA
      = runPhases fuel sOr tOr user_lookup workspace (create_export_state cfg) nowC
          RateLimiter.init := by
    have h0 : run_export fuel sOr tOr user_lookup workspace cfg none false nowA
        = runPhases fuel sOr tOr user_lookup workspace (create_export_state cfg) nowA
            RateLimiter.init := rfl
    rw [h0]
    exact runPhases_indep fuel sOr tOr user_lookup workspace _ nowA nowC _ _
  rw [step1]
  unfold interruptAfterSearching
  cases hC : searchLoop sOr fuel 0 (create_export_state cfg).search_progress.current_page
      (create_export_state cfg) nowC RateLimiter.init with
  | done sC nC rC =>
    have hlhs : runPhases fuel sOr tOr user_lookup workspace (create_export_state cfg) nowC
        RateLimiter.init
        = runPhase23 tOr user_lookup workspace { sC with status := "fetching_threads" }
            nC rC := by
      unfold runPhases
      rw [if_pos (show (create_export_state cfg).status = "searching" from rfl), hC]
    have hrhs : run_export fuel sOr tOr user_lookup workspace cfg
        (some { sC with status := "fetching_threads" }) true nowB
        = runPhase23 tOr user_lookup workspace { sC with status := "fetching_threads" }
            nowB RateLimiter.init := by
      have hred : run_export fuel sOr tOr user_lookup workspace cfg
          (some { sC with status := "fetching_threads" }) true nowB
          = (if ({ sC with status := "fetching_threads" } : ExportState).status = "completed"
             then some (RunOutcome.alreadyCompleted { sC with status := "fetching_threads" })
             else runPhases fuel sOr tOr user_lookup workspace
               { sC with status := "fetching_threads" } nowB RateLimiter.init) := rfl
      rw [hred, if_neg (show ¬ ({ sC with status := "fetching_threads" } : ExportState).status
        = "completed" by dsimp only; decide)]
      unfold runPhases
      rw [if_neg (show ¬ ({ sC with status := "fetching_threads" } : ExportState).status
        = "searching" by dsimp only; decide)]
    rw [hlhs, hrhs]
    exact runPhase23_indep tOr user_lookup workspace _ nC nowB rC RateLimiter.init
  | fatal sC enC edC =>
    have hrhs : run_export fuel sOr tOr user_lookup workspace cfg none true nowB
        = runPhases fuel sOr tOr user_lookup workspace (create_export_state cfg) nowB
            RateLimiter.init := rfl
    rw [hrhs]
    exact runPhases_indep fuel sOr tOr user_lookup workspace _ nowC nowB _ _
  | nofuel =>
    have hrhs : run_export fuel sOr tOr user_lookup workspace cfg none true nowB
        = runPhases fuel sOr tOr user_lookup workspace (create_export_state cfg) nowB
            RateLimiter.init := rfl
    rw [hrhs]
    exact runPhases_indep fuel sOr tOr user_lookup workspace _ nowC nowB _ _

-- ==================== Theorems: skippable thread errors (C6) ====================

/-- C6: during phase `fetching_threads`, a fetch answered with
`thread_not_found`, `channel_not_found` or `not_in_channel` marks the key
fetched, appends an error entry carrying the error kind and the key, creates
no `ThreadRecord`, and the loop continues with the remaining keys. -/
theorem fetch_skip_inaccessible (tOr : String → ThreadResp) (k : String)
    (rest : List String) (i : Nat) (st : ExportState) (now : ℚ) (rl : RateLimiter)
    (cid tts e : String)
    (hsplit : splitKey k = some (cid, tts))
    (horacle : tOr k = ThreadResp.err e)
    (he : e = "thread_not_found" ∨ e = "channel_not_found" ∨ e = "not_in_channel") :
    fetchLoop tOr (k :: rest) i st now rl
      = fetchLoop tOr rest (i + 1)
          { st with
            api_calls := st.api_calls + 1
            thread_progress := { st.thread_progress with
              threads_fetched := st.thread_progress.threads_fetched ++ [k] }
            errors := st.errors ++ [{ etype := e, thread := some k, details := none }] }
          (RateLimiter.wait_for_tier4 now rl).1 (RateLimiter.wait_for_tier4 now rl).2
    ∧ k ∈ st.thread_progress.threads_fetched ++ [k]
    ∧ ({ st with
          api_calls := st.api_calls + 1
          thread_progress := { st.thread_progress with
            threads_fetched := st.thread_progress.threads_fetched ++ [k] }
          errors := st.errors ++ [{ etype := e, thread := some k, details := none }]
        } : ExportState).data.threads = st.data.threads := by
  refine ⟨?_, by simp, rfl⟩
  have hne : e ≠ "ratelimited" := by
    rcases he with rfl | rfl | rfl <;> decide
  simp only [fetchLoop, hsplit, horacle, if_neg hne, if_pos he]

/-- Witness for `fetch_skip_inaccessible`: key `"C1:111.1"` answered
`not_in_channel` lands in `threads_fetched` with an error entry and no
`ThreadRecord`. -/
theorem fetch_skip_inaccessible_witness :
    splitKey "C1:111.1" = some ("C1", "111.1")
    ∧ (fun _ : String => ThreadResp.err "not_in_channel") "C1:111.1"
        = ThreadResp.err "not_in_channel"
    ∧ ("not_in_channel" = "thread_not_found" ∨ "not_in_channel" = "channel_not_found"
        ∨ "not_in_channel" = "not_in_channel")
    ∧ "C1:111.1" ∈ (create_export_state
        ⟨"f", "t", "o", "U1", "alice"⟩).thread_progress.threads_fetched ++ ["C1:111.1"]
    ∧ ({ create_export_state ⟨"f", "t", "o", "U1", "alice"⟩ with
          api_calls := (create_export_state ⟨"f", "t", "o", "U1", "alice"⟩).api_calls + 1
          thread_progress := { (create_export_state
              ⟨"f", "t", "o", "U1", "alice"⟩).thread_progress with
            threads_fetched := (create_export_state
              ⟨"f", "t", "o", "U1", "alice"⟩).thread_progress.threads_fetched ++ ["C1:111.1"] }
          errors := (create_export_state ⟨"f", "t", "o", "U1", "alice"⟩).errors
            ++ [{ etype := "not_in_channel", thread := some "C1:111.1", details := none }]
        } : ExportState).data.threads
        = (create_export_state ⟨"f", "t", "o", "U1", "alice"⟩).data.threads := by
  have h := fetch_skip_inaccessible (fun _ => ThreadResp.err "not_in_channel") "C1:111.1" []
    0 (create_export_state ⟨"f", "t", "o", "U1", "alice"⟩) 0 RateLimiter.init
    "C1" "111.1" "not_in_channel" (by decide) rfl (by decide)
  exact ⟨by decide, rfl, by decide, h.2.1, h.2.2⟩

-- ==================== Theorems: ratelimited thread fetch (C2) ====================

/-- The state carried by a `run_export` outcome. -/
def RunOutcome.state : RunOutcome → ExportState
  | .alreadyCompleted st => st
  | .finished st _ => st
  | .failed st => st

/-- Status of the state carried by a `run_export` result. -/
def runStatus : Option RunOutcome → Option String
  | some oc => some oc.state.status
  | none => none

/-- `threads_fetched` of the state carried by a `run_export` result. -/
def runFetched : Option RunOutcome → Option (List String)
  | some oc => some oc.state.thread_progress.threads_fetched
  | none => none

/-- `threads_pending` of the state carried by a `run_export` result. -/
def runPending : Option RunOutcome → Option (List String)
  | some oc => some oc.state.thread_progress.threads_pending
  | none => none

/-- Whether a `run_export` result wrote the final document. -/
def runWroteOutput : Option RunOutcome → Bool
  | some (.finished _ (some _)) => true
  | _ => false

/-- C2 counterexample: resuming a job in phase `fetching_threads` whose single
pending thread `"C1:111.1"` is answered `ratelimited` completes the export and
writes the output with the key still missing from `threads_fetched` — the key
is not retried, and the `fetching_threads → writing_output` transition happens
although not every pending key is fetched. -/
theorem fetch_ratelimited_counterexample :
    runStatus (run_export 1 (fun _ => SearchResp.err "x")
        (fun _ => ThreadResp.err "ratelimited") [] "ws" ⟨"f", "t", "o", "U1", "alice"⟩
        (some { create_export_state ⟨"f", "t", "o", "U1", "alice"⟩ with
                status := "fetching_threads"
                thread_progress := ⟨["C1:111.1"], [], 0⟩ })
        true 0) = some "completed"
    ∧ runWroteOutput (run_export 1 (fun _ => SearchResp.err "x")
        (fun _ => ThreadResp.err "ratelimited") [] "ws" ⟨"f", "t", "o", "U1", "alice"⟩
        (some { create_export_state ⟨"f", "t", "o", "U1", "alice"⟩ with
                status := "fetching_threads"
                thread_progress := ⟨["C1:111.1"], [], 0⟩ })
        true 0) = true
    ∧ runFetched (run_export 1 (fun _ => SearchResp.err "x")
        (fun _ => ThreadResp.err "ratelimited") [] "ws" ⟨"f", "t", "o", "U1", "alice"⟩
        (some { create_export_state ⟨"f", "t", "o", "U1", "alice"⟩ with
                status := "fetching_threads"
                thread_progress := ⟨["C1:111.1"], [], 0⟩ })
        true 0) = some []
    ∧ runPending (run_export 1 (fun _ => SearchResp.err "x")
        (fun _ => ThreadResp.err "ratelimited") [] "ws" ⟨"f", "t", "o", "U1", "alice"⟩
        (some { create_export_state ⟨"f", "t", "o", "U1", "alice"⟩ with
                status := "fetching_threads"
                thread_progress := ⟨["C1:111.1"], [], 0⟩ })
        true 0) = some ["C1:111.1"] := by
  refine ⟨?_, ?_, ?_, ?_⟩ <;> rfl

/-- C2 (amended): a `ratelimited` thread fetch calls
`handle_rate_limit_response` (recording the backoff) but does *not* retry the
key in this pass — the loop moves on to the next key leaving the current key
out of `threads_fetched` — and once the single pass over `to_fetch` is done
the phase transitions to `writing_output` unconditionally, even when some
pending keys are not in `threads_fetched`. -/
theorem fetch_ratelimited_behavior (tOr : String → ThreadResp) (k : String)
    (rest : List String) (i : Nat) (st : ExportState) (now : ℚ) (rl : RateLimiter)
    (cid tts : String)
    (hsplit : splitKey k = some (cid, tts))
    (horacle : tOr k = ThreadResp.err "ratelimited") :
    fetchLoop tOr (k :: rest) i st now rl
      = fetchLoop tOr rest (i + 1) { st with api_calls := st.api_calls + 1 }
          (RateLimiter.wait_for_tier4 now rl).1
          (RateLimiter.handle_rate_limit_response (RateLimiter.wait_for_tier4 now rl).1 none
            (RateLimiter.wait_for_tier4 now rl).2)
    ∧ (∀ (user_lookup : List (String × String)) (workspace : String) (st' s2 : ExportState)
          (n2 : ℚ) (r2 : RateLimiter),
        st'.status = "fetching_threads" →
        fetchLoop tOr (st'.thread_progress.threads_pending.filter
            (fun t => !st'.thread_progress.threads_fetched.contains t)) 0 st' now rl
          = FetchOutcome.done s2 n2 r2 →
        runPhase23 tOr user_lookup workspace st' now rl
          = runPhase3 user_lookup workspace { s2 with status := "writing_output" }) := by
  constructor
  · simp only [fetchLoop, hsplit, horacle, eq_self_iff_true, if_true]
  · intro user_lookup workspace st' s2 n2 r2 hst hfetch
    unfold runPhase23
    rw [if_pos hst, hfetch]

/-- Witness for `fetch_ratelimited_behavior`: a `ratelimited` answer for key
`"C1:111.1"` records a backoff and moves on to the (empty) rest of the pass
without marking the key fetched. -/
theorem fetch_ratelimited_behavior_witness :
    splitKey "C1:111.1" = some ("C1", "111.1")
    ∧ (fun _ : String => ThreadResp.err "ratelimited") "C1:111.1"
        = ThreadResp.err "ratelimited"
    ∧ fetchLoop (fun _ => ThreadResp.err "ratelimited") ["C1:111.1"] 0
        (create_export_state ⟨"f", "t", "o", "U1", "alice"⟩) 0 RateLimiter.init
      = fetchLoop (fun _ => ThreadResp.err "ratelimited") [] (0 + 1)
          { create_export_state ⟨"f", "t", "o", "U1", "alice"⟩ with
            api_calls := (create_export_state ⟨"f", "t", "o", "U1", "alice"⟩).api_calls + 1 }
          (RateLimiter.wait_for_tier4 0 RateLimiter.init).1
          (RateLimiter.handle_rate_limit_response
            (RateLimiter.wait_for_tier4 0 RateLimiter.init).1 none
            (RateLimiter.wait_for_tier4 0 RateLimiter.init).2) := by
  have h := fetch_ratelimited_behavior (fun _ => ThreadResp.err "ratelimited") "C1:111.1" []
    0 (create_export_state ⟨"f", "t", "o", "U1", "alice"⟩) 0 RateLimiter.init
    "C1" "111.1" (by decide) rfl
  exact ⟨by decide, rfl, h.1⟩

-- ==================== Theorems: no duplicate threads (C5) ====================

/-- The thread key `_process_search_result` would insert for a match, when the
match is threaded. -/
def psrKey (msg : SMatch) : Option String :=
  if strTruthy (psrThreadTs msg) then
    some (fmtOpt msg.channel_id ++ ":" ++ fmtOpt (psrThreadTs msg))
  else none

/-- The keys of the accumulated `ThreadRecord`s. -/
def threadKeys (st : ExportState) : List String :=
  st.data.threads.map (fun t => t.thread_id)

/-- The deduplication invariant of an export state: pending keys are
duplicate-free, thread-record keys are duplicate-free, and every stored
thread record's key is already marked fetched. -/
def ExportInv (st : ExportState) : Prop :=
  st.thread_progress.threads_pending.Nodup
  ∧ (threadKeys st).Nodup
  ∧ ∀ k ∈ threadKeys st, k ∈ st.thread_progress.threads_fetched

lemma register_channel_tp (m : SMatch) (st : ExportState) :
    (_psr_register_channel m st).thread_progress = st.thread_progress := by
  unfold _psr_register_channel
  split
  · split <;> rfl
  · rfl

lemma register_channel_threads (m : SMatch) (st : ExportState) :
    (_psr_register_channel m st).data.threads = st.data.threads := by
  unfold _psr_register_channel
  split
  · split <;> rfl
  · rfl

lemma psr_pending_spec (m : SMatch) (st : ExportState) :
    (_process_search_result m st).thread_progress.threads_pending
      = (match psrKey m with
         | none => st.thread_progress.threads_pending
         | some k =>
           if st.thread_progress.threads_pending.contains k
           then st.thread_progress.threads_pending
           else st.thread_progress.threads_pending ++ [k]) := by
  unfold _process_search_result psrKey
  by_cases h : strTruthy (psrThreadTs m)
  · simp only [if_pos h, register_channel_tp]
    split
    · simp_all [register_channel_tp]
    · simp_all [register_channel_tp]
  · simp only [if_neg h, register_channel_tp]

lemma psr_threads (m : SMatch) (st : ExportState) :
    (_process_search_result m st).data.threads = st.data.threads := by
  unfold _process_search_result
  by_cases h : strTruthy (psrThreadTs m)
  · simp only [if_pos h]
    split
    · exact register_channel_threads m st
    · simp only [register_channel_threads]
  · simp only [if_neg h, register_channel_threads]

lemma psr_fetched (m : SMatch) (st : ExportState) :
    (_process_search_result m st).thread_progress.threads_fetched
      = st.thread_progress.threads_fetched := by
  unfold _process_search_result
  by_cases h : strTruthy (psrThreadTs m)
  · simp only [if_pos h]
    split
    · simp only [register_channel_tp]
    · simp only [register_channel_tp]
  · simp only [if_neg h, register_channel_tp]

lemma psr_pending_nodup (m : SMatch) (st : ExportState)
    (h : st.thread_progress.threads_pending.Nodup) :
    (_process_search_result m st).thread_progress.threads_pending.Nodup := by
  rw [psr_pending_spec]
  match psrKey m with
  | none => exact h
  | some k =>
    by_cases hc : k ∈ st.thread_progress.threads_pending
    · simpa [hc] using h
    · simp [hc, List.nodup_append, h]

/-- Inserting an already-present key is a no-op: processing the same match a
second time leaves the pending set unchanged. -/
lemma psr_pending_idem (m : SMatch) (st : ExportState) :
    (_process_search_result m (_process_search_result m st)).thread_progress.threads_pending
      = (_process_search_result m st).thread_progress.threads_pending := by
  rw [psr_pending_spec m (_process_search_result m st), psr_pending_spec m st]
  match psrKey m with
  | none => rfl
  | some k =>
    by_cases hc : k ∈ st.thread_progress.threads_pending
    · simp [hc]
    · simp [hc]

lemma psr_inv (m : SMatch) (st : ExportState) (h : ExportInv st) :
    ExportInv (_process_search_result m st) := by
  obtain ⟨h1, h2, h3⟩ := h
  refine ⟨psr_pending_nodup m st h1, ?_, ?_⟩
  · unfold threadKeys
    rw [psr_threads]
    exact h2
  · intro k hk
    rw [psr_fetched]
    refine h3 k ?_
    unfold threadKeys at hk ⊢
    rwa [psr_threads] at hk

lemma foldl_psr_inv (ms : List SMatch) :
    ∀ st : ExportState, ExportInv st →
      ExportInv (ms.foldl (fun s m => _process_search_result m s) st) := by
  induction ms with
  | nil => intro st h; exact h
  | cons m rest ih =>
    intro st h
    exact ih _ (psr_inv m st h)

lemma processPage_inv (pg : SearchPage) (page : Nat) (st : ExportState)
    (h : ExportInv st) : ExportInv (processPage pg page st) := by
  unfold processPage
  have h' := foldl_psr_inv pg.page_matches st h
  exact h'

/-- Invariant of the state carried by a search-phase outcome. -/
def SearchOutcomeInv : SearchOutcome → Prop
  | .done s _ _ => ExportInv s
  | .fatal s _ _ => ExportInv s
  | .nofuel => True

lemma api_bump_inv (st : ExportState) (h : ExportInv st) :
    ExportInv { st with api_calls := st.api_calls + 1 } := h

lemma searchLoop_inv (sOr : Nat → SearchResp) :
    ∀ (fuel callIdx page : Nat) (st : ExportState) (now : ℚ) (rl : RateLimiter),
      ExportInv st → SearchOutcomeInv (searchLoop sOr fuel callIdx page st now rl) := by
  intro fuel
  induction fuel with
  | zero => intro _ _ _ _ _ _; trivial
  | succ f ih =>
    intro callIdx page st now rl h
    simp only [searchLoop]
    cases sOr callIdx with
    | err e =>
      by_cases h1 : e = "ratelimited"
      · simp only [if_pos h1]
        exact ih _ _ _ _ _ (api_bump_inv st h)
      · simp only [if_neg h1]
        exact api_bump_inv st h
    | ok pg =>
      by_cases h2 : pg.pages ≤ page
      · simp only [if_pos h2]
        exact processPage_inv pg page _ (api_bump_inv st h)
      · simp only [if_neg h2]
        exact ih _ _ _ _ _ (processPage_inv pg page _ (api_bump_inv st h))

lemma store_thread_data_threadKeys (k : String) (msgs : List TMsg) (st : ExportState)
    (p : String × String) (hsplit : splitKey k = some p) :
    threadKeys (_store_thread_data k msgs st) = threadKeys st ++ [k]
    ∧ (_store_thread_data k msgs st).thread_progress = st.thread_progress := by
  unfold _store_thread_data threadKeys
  rw [hsplit]
  exact ⟨by simp, rfl⟩

/-- Invariant of the state carried by a fetch-phase outcome. -/
def FetchOutcomeInv : FetchOutcome → Prop
  | .done s _ _ => ExportInv s
  | .fatal s _ _ => ExportInv s

lemma fetch_ok_step (k : String) (msgs : List TMsg) (st : ExportState) (i : Nat)
    (p : String × String) (hsplit : splitKey k = some p) :
    ({ _store_thread_data k msgs { st with api_calls := st.api_calls + 1 } with
        thread_progress := { (_store_thread_data k msgs
            { st with api_calls := st.api_calls + 1 }).thread_progress with
          threads_fetched := (_store_thread_data k msgs
            { st with api_calls := st.api_calls + 1 }).thread_progress.threads_fetched ++ [k]
          current_index := i + 1 } } : ExportState).thread_progress.threads_pending
        = st.thread_progress.threads_pending
    ∧ ({ _store_thread_data k msgs { st with api_calls := st.api_calls + 1 } with
        thread_progress := { (_store_thread_data k msgs
            { st with api_calls := st.api_calls + 1 }).thread_progress with
          threads_fetched := (_store_thread_data k msgs
            { st with api_calls := st.api_calls + 1 }).thread_progress.threads_fetched ++ [k]
          current_index := i + 1 } } : ExportState).thread_progress.threads_fetched
        = st.thread_progress.threads_fetched ++ [k]
    ∧ threadKeys ({ _store_thread_data k msgs { st with api_calls := st.api_calls + 1 } with
        thread_progress := { (_store_thread_data k msgs
            { st with api_calls := st.api_calls + 1 }).thread_progress with
          threads_fetched := (_store_thread_data k msgs
            { st with api_calls := st.api_calls + 1 }).thread_progress.threads_fetched ++ [k]
          current_index := i + 1 } } : ExportState)
        = threadKeys st ++ [k] := by
  have hst2 := store_thread_data_threadKeys k msgs
    { st with api_calls := st.api_calls + 1 } p hsplit
  refine ⟨?_, ?_, ?_⟩
  · show (_store_thread_data k msgs
        { st with api_calls := st.api_calls + 1 }).thread_progress.threads_pending = _
    rw [hst2.2]
  · show (_store_thread_data k msgs
        { st with api_calls := st.api_calls + 1 }).thread_progress.threads_fetched ++ [k] = _
    rw [hst2.2]
  · show threadKeys (_store_thread_data k msgs { st with api_calls := st.api_calls + 1 }) = _
    rw [hst2.1]
    have hb : threadKeys { st with api_calls := st.api_calls + 1 } = threadKeys st := rfl
    rw [hb]

lemma fetchLoop_inv (tOr : String → ThreadResp) (keys : List String) :
    ∀ (i : Nat) (st : ExportState) (now : ℚ) (rl : RateLimiter),
      ExportInv st → keys.Nodup →
      (∀ k ∈ keys, k ∉ st.thread_progress.threads_fetched) →
      FetchOutcomeInv (fetchLoop tOr keys i st now rl) := by
  induction keys with
  | nil => intro _ st _ _ h _ _; exact h
  | cons k rest ih =>
    intro i st now rl h hnd hdisj
    obtain ⟨h1, h2, h3⟩ := h
    have hkfetch : k ∉ st.thread_progress.threads_fetched :=
      hdisj k (List.mem_cons_self k rest)
    have hrestnd : rest.Nodup := hnd.of_cons
    have hknotrest : k ∉ rest := (List.nodup_cons.mp hnd).1
    simp only [fetchLoop]
    cases hsplit : splitKey k with
    | none => exact ⟨h1, h2, h3⟩
    | some p =>
      cases tOr k with
      | err e =>
        by_cases he1 : e = "ratelimited"
        · simp only [if_pos he1]
          refine ih _ _ _ _ ⟨h1, h2, h3⟩ hrestnd ?_
          intro k' hk'
          exact hdisj k' (List.mem_cons_of_mem k hk')
        · by_cases he2 : e = "thread_not_found" ∨ e = "channel_not_found"
              ∨ e = "not_in_channel"
          · simp only [if_neg he1, if_pos he2]
            refine ih _ _ _ _ ⟨h1, h2, ?_⟩ hrestnd ?_
            · intro k' hk'
              exact List.mem_append_left _ (h3 k' hk')
            · intro k' hk'
              simp only [List.mem_append, List.mem_singleton]
              push_neg
              exact ⟨hdisj k' (List.mem_cons_of_mem k hk'),
                fun hkk => hknotrest (hkk ▸ hk')⟩
          · simp only [if_neg he1, if_neg he2]
            exact ⟨h1, h2, h3⟩
      | ok msgs =>
        have hstep := fetch_ok_step k msgs st i p hsplit
        have hknotkeys : k ∉ threadKeys st := fun hk => hkfetch (h3 k hk)
        refine ih _ _ _ _ ⟨?_, ?_, ?_⟩ hrestnd ?_
        · rw [hstep.1]
          exact h1
        · rw [hstep.2.2]
          simp [List.nodup_append, h2, hknotkeys]
        · intro k' hk'
          rw [hstep.2.1]
          rw [hstep.2.2] at hk'
          rcases List.mem_append.mp hk' with hmem | hmem
          · exact List.mem_append_left _ (h3 k' hmem)
          · simp only [List.mem_singleton] at hmem
            subst hmem
            exact List.mem_append_right _ (List.mem_singleton_self _)
        · intro k' hk'
          rw [hstep.2.1]
          simp only [List.mem_append, List.mem_singleton]
          push_neg
          exact ⟨hdisj k' (List.mem_cons_of_mem k hk'),
            fun hkk => hknotrest (hkk ▸ hk')⟩

lemma runPhase3_inv (user_lookup : List (String × String)) (workspace : String)
    (st : ExportState) (h : ExportInv st) :
    ∀ oc, runPhase3 user_lookup workspace st = some oc → ExportInv oc.state := by
  intro oc hoc
  unfold runPhase3 at hoc
  split at hoc
  · cases hoc
    exact h
  · cases hoc
    exact h

lemma runPhase23_inv (tOr : String → ThreadResp) (user_lookup : List (String × String))
    (workspace : String) (st : ExportState) (now : ℚ) (rl : RateLimiter)
    (h : ExportInv st) :
    ∀ oc, runPhase23 tOr user_lookup workspace st now rl = some oc → ExportInv oc.state := by
  intro oc hoc
  unfold runPhase23 at hoc
  split at hoc
  · have hfl := fetchLoop_inv tOr
      (st.thread_progress.threads_pending.filter
        (fun t => !st.thread_progress.threads_fetched.contains t)) 0 st now rl h
      (h.1.filter _)
      (by
        intro k hk
        have hpred := (List.mem_filter.mp hk).2
        simp only [Bool.not_eq_true'] at hpred
        simpa using hpred)
    revert hoc
    cases hfe : fetchLoop tOr
        (st.thread_progress.threads_pending.filter
          (fun t => !st.thread_progress.threads_fetched.contains t)) 0 st now rl with
    | done s n r =>
      intro hoc
      rw [hfe] at hfl
      exact runPhase3_inv user_lookup workspace { s with status := "writing_output" }
        hfl oc hoc
    | fatal s en ed =>
      intro hoc
      rw [hfe] at hfl
      cases hoc
      exact hfl
  · exact runPhase3_inv user_lookup workspace st h oc hoc

lemma runPhases_inv (fuel : Nat) (sOr : Nat → SearchResp) (tOr : String → ThreadResp)
    (user_lookup : List (String × String)) (workspace : String) (st : ExportState)
    (now : ℚ) (rl : RateLimiter) (h : ExportInv st) :
    ∀ oc, runPhases fuel sOr tOr user_lookup workspace st now rl = some oc →
      ExportInv oc.state := by
  intro oc hoc
  unfold runPhases at hoc
  split at hoc
  · have hsl := searchLoop_inv sOr fuel 0 st.search_progress.current_page st now rl h
    revert hoc
    cases hse : searchLoop sOr fuel 0 st.search_progress.current_page st now rl with
    | done s n r =>
      intro hoc
      rw [hse] at hsl
      exact runPhase23_inv tOr user_lookup workspace { s with status := "fetching_threads" }
        n r hsl oc hoc
    | fatal s en ed =>
      intro hoc
      rw [hse] at hsl
      cases hoc
      exact hsl
    | nofuel => intro hoc; cases hoc
  · exact runPhase23_inv tOr user_lookup workspace st now rl h oc hoc

lemma create_export_state_inv (cfg : ExportConfig) : ExportInv (create_export_state cfg) := by
  refine ⟨?_, ?_, ?_⟩ <;> simp [create_export_state, threadKeys]

/-- C5: a thread key is inserted into `threads_pending` at most once —
processing preserves duplicate-freedom and re-processing the same match is a
no-op on the pending set — and for every run of the pipeline (fresh, or
resumed from any stored state satisfying the dedup invariant, which fresh
states and all checkpoints do), each `ThreadKey` appears in the final
`data.threads` list at most once. -/
theorem no_duplicate_threads (fuel : Nat) (sOr : Nat → SearchResp)
    (tOr : String → ThreadResp) (user_lookup : List (String × String))
    (workspace : String) (cfg : ExportConfig) (stored : Option ExportState)
    (resume : Bool) (now0 : ℚ)
    (hstored : ∀ s, stored = some s → ExportInv s) :
    (∀ (m : SMatch) (st : ExportState),
      (st.thread_progress.threads_pending.Nodup →
        (_process_search_result m st).thread_progress.threads_pending.Nodup)
      ∧ (_process_search_result m
            (_process_search_result m st)).thread_progress.threads_pending
          = (_process_search_result m st).thread_progress.threads_pending)
    ∧ ∀ oc, run_export fuel sOr tOr user_lookup workspace cfg stored resume now0 = some oc →
        (threadKeys oc.state).Nodup ∧ ExportInv oc.state := by
  constructor
  · intro m st
    exact ⟨psr_pending_nodup m st, psr_pending_idem m st⟩
  · intro oc hoc
    unfold run_export at hoc
    revert hoc
    cases hsto : (if resume then stored else none) with
    | none =>
      intro hoc
      replace hoc : runPhases fuel sOr tOr user_lookup workspace (create_export_state cfg)
          now0 RateLimiter.init = some oc := hoc
      have := runPhases_inv fuel sOr tOr user_lookup workspace _ now0 RateLimiter.init
        (create_export_state_inv cfg) oc hoc
      exact ⟨this.2.1, this⟩
    | some s =>
      intro hoc
      replace hoc : (if s.status = "completed" then some (RunOutcome.alreadyCompleted s)
          else runPhases fuel sOr tOr user_lookup workspace s now0 RateLimiter.init)
          = some oc := hoc
      have hs : ExportInv s := by
        refine hstored s ?_
        by_cases hr : resume
        · rw [if_pos hr] at hsto; exact hsto
        · rw [if_neg hr] at hsto; cases hsto
      by_cases hcomp : s.status = "completed"
      · rw [if_pos hcomp] at hoc
        cases hoc
        exact ⟨hs.2.1, hs⟩
      · rw [if_neg hcomp] at hoc
        have := runPhases_inv fuel sOr tOr user_lookup workspace s now0 RateLimiter.init
          hs oc hoc
        exact ⟨this.2.1, this⟩

/-- Witness for `no_duplicate_threads`: the two-match run (one threaded, one
standalone) yields a duplicate-free thread list. -/
theorem no_duplicate_threads_witness :
    (∀ s : ExportState, (none : Option ExportState) = some s → ExportInv s)
    ∧ ∀ oc, run_export 3
        (fun i => if i = 0 then SearchResp.ok
          ⟨[⟨some "C1", some "gen", some "111.2", some "111.1", some "U1", some "alice",
              "hi", some "p", []⟩,
            ⟨some "C1", some "gen", some "222.2", none, some "U1", some "alice",
              "solo", none, []⟩], 2, 1⟩
          else SearchResp.err "unknown")
        (fun _ => ThreadResp.ok [⟨some "U2", some "111.1", "root"⟩])
        [] "ws" ⟨"f", "t", "o", "U1", "alice"⟩ none false 0 = some oc →
        (threadKeys oc.state).Nodup ∧ ExportInv oc.state := by
  have h := no_duplicate_threads 3
    (fun i => if i = 0 then SearchResp.ok
      ⟨[⟨some "C1", some "gen", some "111.2", some "111.1", some "U1", some "alice",
          "hi", some "p", []⟩,
        ⟨some "C1", some "gen", some "222.2", none, some "U1", some "alice",
          "solo", none, []⟩], 2, 1⟩
      else SearchResp.err "unknown")
    (fun _ => ThreadResp.ok [⟨some "U2", some "111.1", "root"⟩])
    [] "ws" ⟨"f", "t", "o", "U1", "alice"⟩ none false 0
    (fun s hs => nomatch hs)
  exact ⟨(fun s hs => nomatch hs), h.2⟩

-- ==================== Theorems: mention handled flag (C7) ====================

lemma checkUserReplied_iff (pf : String → ℚ) (uid : String) (mts : ℚ) (msgs : List TMsg) :
    checkUserReplied pf uid mts msgs = true
      ↔ ∃ t ∈ msgs, t.user = some uid ∧ mts < tsValOf pf t.ts := by
  induction msgs with
  | nil => simp [checkUserReplied]
  | cons t rest ih =>
    simp only [checkUserReplied]
    by_cases hu : t.user = some uid
    · by_cases hts : mts < tsValOf pf t.ts
      · simp [hu, hts]
      · simp [hu, hts, ih]
    · simp [hu, ih]

/-- The dedup key of a search match (`f"{channel.id}:{ts}"`). -/
def msgKey (m : SMatch) : String := fmtOpt m.channel_id ++ ":" ++ fmtOpt m.ts

/-- C7: for a mention the digest records (not previously seen, not
self-authored) whose enclosing thread is fetched successfully, exactly one
mention entry is appended and its `handled` flag is true iff the fetched
thread contains a message authored by the target user with timestamp strictly
greater than the mention's. -/
theorem mention_handled_correct (pf : String → ℚ)
    (tOr : String → String → Option (List TMsg)) (ctx : DigestCtx) (m : SMatch)
    (acc : DigestAcc) (msgs : List TMsg)
    (hseen : msgKey m ∉ acc.seen)
    (hself : ¬ (m.user = some ctx.user_id ∨ m.username = some ctx.username))
    (htr : strTruthy m.channel_id ∧ strTruthy (pyOr m.thread_ts m.ts))
    (hfetch : tOr (fmtOpt m.channel_id) (fmtOpt (pyOr m.thread_ts m.ts)) = some msgs) :
    (processMentionMatch pf tOr ctx m acc).mentions
      = acc.mentions ++
        [{ workspace := ctx.ws_name
           channel := m.channel_name.getD "unknown"
           channel_id := m.channel_id
           sender := resolveName ctx.user_lookup (pyOr m.user m.username)
           sender_id := pyOr m.user m.username
           text := pyTake (mentionText m) 500
           ts := m.ts
           permalink := m.permalink
           handled := checkUserReplied pf ctx.user_id (tsValOf pf m.ts) msgs }]
    ∧ (checkUserReplied pf ctx.user_id (tsValOf pf m.ts) msgs = true
        ↔ ∃ t ∈ msgs, t.user = some ctx.user_id
            ∧ tsValOf pf m.ts < tsValOf pf t.ts) := by
  constructor
  · have hc : acc.seen.contains (msgKey m) = false := by simpa using hseen
    have hsu : (m.user == some ctx.user_id || m.username == some ctx.username) = false := by
      push_neg at hself
      simp [hself.1, hself.2]
    unfold processMentionMatch
    rw [show (fmtOpt m.channel_id ++ ":" ++ fmtOpt m.ts) = msgKey m from rfl]
    simp only [hc, Bool.false_eq_true, if_false, hsu, if_pos htr, hfetch]
  · exact checkUserReplied_iff pf ctx.user_id (tsValOf pf m.ts) msgs

/-- Witness for `mention_handled_correct`: a mention at ts 100.5 with a
target-user reply at 101.5 (strictly later) is recorded handled. -/
theorem mention_handled_correct_witness :
    msgKey ⟨some "C1", some "gen", some "100.5", none, some "U2", some "bob",
        "hi <@U1>", none, []⟩ ∉ ([] : List String)
    ∧ ¬ ((⟨some "C1", some "gen", some "100.5", none, some "U2", some "bob",
          "hi <@U1>", none, []⟩ : SMatch).user = some "U1"
        ∨ (⟨some "C1", some "gen", some "100.5", none, some "U2", some "bob",
          "hi <@U1>", none, []⟩ : SMatch).username = some "alice")
    ∧ (processMentionMatch (fun s => if s = "101.5" then (203/2 : ℚ) else 201/2)
        (fun _ _ => some [⟨some "U1", some "101.5", "on it"⟩])
        ⟨"ws", "U1", "alice", []⟩
        ⟨some "C1", some "gen", some "100.5", none, some "U2", some "bob",
          "hi <@U1>", none, []⟩
        (initDigestAcc 0)).mentions
      = [] ++
        [{ workspace := "ws"
           channel := "gen"
           channel_id := some "C1"
           sender := resolveName [] (pyOr (some "U2") (some "bob"))
           sender_id := pyOr (some "U2") (some "bob")
           text := pyTake (mentionText ⟨some "C1", some "gen", some "100.5", none,
              some "U2", some "bob", "hi <@U1>", none, []⟩) 500
           ts := some "100.5"
           permalink := none
           handled := checkUserReplied (fun s => if s = "101.5" then (203/2 : ℚ) else 201/2)
              "U1" (tsValOf (fun s => if s = "101.5" then (203/2 : ℚ) else 201/2)
                (some "100.5")) [⟨some "U1", some "101.5", "on it"⟩] }]
    ∧ checkUserReplied (fun s => if s = "101.5" then (203/2 : ℚ) else 201/2)
        "U1" (tsValOf (fun s => if s = "101.5" then (203/2 : ℚ) else 201/2)
          (some "100.5")) [⟨some "U1", some "101.5", "on it"⟩] = true := by
  have h := mention_handled_correct (fun s => if s = "101.5" then (203/2 : ℚ) else 201/2)
    (fun _ _ => some [⟨some "U1", some "101.5", "on it"⟩])
    ⟨"ws", "U1", "alice", []⟩
    ⟨some "C1", some "gen", some "100.5", none, some "U2", some "bob", "hi <@U1>", none, []⟩
    (initDigestAcc 0) [⟨some "U1", some "101.5", "on it"⟩]
    (by simp [initDigestAcc])
    (by simp)
    (by constructor <;> decide)
    rfl
  refine ⟨by simp [initDigestAcc], by simp, h.1, ?_⟩
  rw [h.2]
  refine ⟨⟨some "U1", some "101.5", "on it"⟩, List.mem_singleton_self _, rfl, ?_⟩
  simp [tsValOf]
  norm_num

-- ==================== Theorems: digest dedup (C8) ====================

/-- The dedup key a mention entry occupies in the output. -/
def MentionEntry.entryKey (e : MentionEntry) : String :=
  fmtOpt e.channel_id ++ ":" ++ fmtOpt e.ts

/-- The dedup key a reply entry occupies in the output. -/
def ReplyEntry.entryKey (e : ReplyEntry) : String :=
  e.channel_id ++ ":" ++ fmtOpt e.ts

/-- Number of mention entries carrying a given dedup key. -/
def countKeyM (l : List MentionEntry) (K : String) : Nat :=
  l.countP (fun e => e.entryKey == K)

/-- Number of reply entries carrying a given dedup key. -/
def countKeyR (l : List ReplyEntry) (K : String) : Nat :=
  l.countP (fun e => e.entryKey == K)

/-- Shape of one mention-match step: an already-seen key leaves the
accumulator untouched; otherwise the key is added to `seen` and, unless the
match is self-authored, exactly one mention entry carrying that key is
appended; replies are never touched. -/
lemma pm_shape (pf : String → ℚ) (tOr : String → String → Option (List TMsg))
    (ctx : DigestCtx) (m : SMatch) (acc : DigestAcc) :
    (msgKey m ∈ acc.seen ∧ processMentionMatch pf tOr ctx m acc = acc)
    ∨ (msgKey m ∉ acc.seen
       ∧ (processMentionMatch pf tOr ctx m acc).seen = acc.seen ++ [msgKey m]
       ∧ (processMentionMatch pf tOr ctx m acc).replies = acc.replies
       ∧ (((m.user == some ctx.user_id || m.username == some ctx.username) = true
             ∧ (processMentionMatch pf tOr ctx m acc).mentions = acc.mentions)
          ∨ ((m.user == some ctx.user_id || m.username == some ctx.username) = false
             ∧ ∃ e : MentionEntry,
                 (processMentionMatch pf tOr ctx m acc).mentions = acc.mentions ++ [e]
                 ∧ e.entryKey = msgKey m))) := by
  by_cases hs : msgKey m ∈ acc.seen
  · left
    refine ⟨hs, ?_⟩
    unfold processMentionMatch
    rw [show (fmtOpt m.channel_id ++ ":" ++ fmtOpt m.ts) = msgKey m from rfl]
    simp [hs]
  · right
    have hc : acc.seen.contains (msgKey m) = false := by simpa using hs
    refine ⟨hs, ?_, ?_, ?_⟩
    · unfold processMentionMatch
      rw [show (fmtOpt m.channel_id ++ ":" ++ fmtOpt m.ts) = msgKey m from rfl]
      simp only [hc, Bool.false_eq_true, if_false]
      by_cases hself : (m.user == some ctx.user_id || m.username == some ctx.username) = true
      · simp only [if_pos hself]
      · simp only [if_neg hself]
        by_cases htr : strTruthy m.channel_id = true
            ∧ strTruthy (pyOr m.thread_ts m.ts) = true
        · simp only [if_pos htr]
          cases tOr (fmtOpt m.channel_id) (fmtOpt (pyOr m.thread_ts m.ts)) <;> rfl
        · simp only [if_neg htr]
    · unfold processMentionMatch
      rw [show (fmtOpt m.channel_id ++ ":" ++ fmtOpt m.ts) = msgKey m from rfl]
      simp only [hc, Bool.false_eq_true, if_false]
      by_cases hself : (m.user == some ctx.user_id || m.username == some ctx.username) = true
      · simp only [if_pos hself]
      · simp only [if_neg hself]
        by_cases htr : strTruthy m.channel_id = true
            ∧ strTruthy (pyOr m.thread_ts m.ts) = true
        · simp only [if_pos htr]
          cases tOr (fmtOpt m.channel_id) (fmtOpt (pyOr m.thread_ts m.ts)) <;> rfl
        · simp only [if_neg htr]
    · by_cases hself : (m.user == some ctx.user_id || m.username == some ctx.username) = true
      · refine Or.inl ⟨hself, ?_⟩
        unfold processMentionMatch
        rw [show (fmtOpt m.channel_id ++ ":" ++ fmtOpt m.ts) = msgKey m from rfl]
        simp only [hc, Bool.false_eq_true, if_false, if_pos hself]
      · refine Or.inr ⟨Bool.not_eq_true _ ▸ Bool.of_not_eq_true hself, ?_⟩
        unfold processMentionMatch
        rw [show (fmtOpt m.channel_id ++ ":" ++ fmtOpt m.ts) = msgKey m from rfl]
        simp only [hc, Bool.false_eq_true, if_false, if_neg hself]
        by_cases htr : strTruthy m.channel_id = true
            ∧ strTruthy (pyOr m.thread_ts m.ts) = true
        · simp only [if_pos htr]
          cases tOr (fmtOpt m.channel_id) (fmtOpt (pyOr m.thread_ts m.ts)) with
          | some msgs => exact ⟨_, rfl, rfl⟩
          | none => exact ⟨_, rfl, rfl⟩
        · simp only [if_neg htr]
          exact ⟨_, rfl, rfl⟩

lemma pm_replies_eq (pf : String → ℚ) (tOr : String → String → Option (List TMsg))
    (ctx : DigestCtx) (m : SMatch) (acc : DigestAcc) :
    (processMentionMatch pf tOr ctx m acc).replies = acc.replies := by
  rcases pm_shape pf tOr ctx m acc with ⟨_, he⟩ | ⟨_, _, hr, _⟩
  · rw [he]
  · exact hr

lemma pm_seen_mono (pf : String → ℚ) (tOr : String → String → Option (List TMsg))
    (ctx : DigestCtx) (m : SMatch) (acc : DigestAcc) (K : String) (h : K ∈ acc.seen) :
    K ∈ (processMentionMatch pf tOr ctx m acc).seen := by
  rcases pm_shape pf tOr ctx m acc with ⟨_, he⟩ | ⟨_, hseen, _, _⟩
  · rw [he]; exact h
  · rw [hseen]; exact List.mem_append_left _ h

lemma pm_count_other (pf : String → ℚ) (tOr : String → String → Option (List TMsg))
    (ctx : DigestCtx) (m : SMatch) (acc : DigestAcc) (K : String) (hne : msgKey m ≠ K) :
    countKeyM (processMentionMatch pf tOr ctx m acc).mentions K
      = countKeyM acc.mentions K
    ∧ (K ∈ (processMentionMatch pf tOr ctx m acc).seen ↔ K ∈ acc.seen) := by
  rcases pm_shape pf tOr ctx m acc with ⟨_, he⟩ | ⟨_, hseen, _, hm⟩
  · rw [he]; exact ⟨rfl, Iff.rfl⟩
  · constructor
    · rcases hm with ⟨_, hm⟩ | ⟨_, e, hm, hek⟩
      · rw [hm]
      · rw [hm]
        unfold countKeyM
        rw [List.countP_append]
        have : (e.entryKey == K) = false := by
          rw [hek]
          exact beq_eq_false_iff_ne.mpr hne
        simp [List.countP_cons, this]
    · rw [hseen]
      simp only [List.mem_append, List.mem_singleton]
      constructor
      · rintro (h | h)
        · exact h
        · exact absurd h.symm hne
      · exact Or.inl

lemma pm_count_first (pf : String → ℚ) (tOr : String → String → Option (List TMsg))
    (ctx : DigestCtx) (m : SMatch) (acc : DigestAcc) (K : String) (heq : msgKey m = K)
    (hK : K ∉ acc.seen)
    (hns : ¬ (m.user = some ctx.user_id ∨ m.username = some ctx.username)) :
    countKeyM (processMentionMatch pf tOr ctx m acc).mentions K
      = countKeyM acc.mentions K + 1
    ∧ K ∈ (processMentionMatch pf tOr ctx m acc).seen := by
  have hns' : (m.user == some ctx.user_id || m.username == some ctx.username) = false := by
    push_neg at hns
    simp [hns.1, hns.2]
  rcases pm_shape pf tOr ctx m acc with ⟨hmem, _⟩ | ⟨_, hseen, _, hm⟩
  · exact absurd (heq ▸ hmem) hK
  · constructor
    · rcases hm with ⟨hself, _⟩ | ⟨_, e, hm, hek⟩
      · rw [hns'] at hself
        cases hself
      · rw [hm]
        unfold countKeyM
        rw [List.countP_append]
        have : (e.entryKey == K) = true := by
          rw [hek, heq]
          exact beq_self_eq_true K
        simp [List.countP_cons, this]
    · rw [hseen, heq]
      exact List.mem_append_right _ (List.mem_singleton_self K)

lemma pm_fold_replies (pf : String → ℚ) (tOr : String → String → Option (List TMsg))
    (ctx : DigestCtx) (ms : List SMatch) : ∀ acc : DigestAcc,
    (ms.foldl (fun a m => processMentionMatch pf tOr ctx m a) acc).replies = acc.replies := by
  induction ms with
  | nil => intro acc; rfl
  | cons m rest ih =>
    intro acc
    rw [List.foldl_cons, ih, pm_replies_eq]

lemma pm_fold_seen (pf : String → ℚ) (tOr : String → String → Option (List TMsg))
    (ctx : DigestCtx) (ms : List SMatch) : ∀ (acc : DigestAcc) (K : String), K ∈ acc.seen →
    K ∈ (ms.foldl (fun a m => processMentionMatch pf tOr ctx m a) acc).seen := by
  induction ms with
  | nil => intro acc K h; exact h
  | cons m rest ih =>
    intro acc K h
    exact ih _ K (pm_seen_mono pf tOr ctx m acc K h)

lemma pm_fold_seen_count (pf : String → ℚ) (tOr : String → String → Option (List TMsg))
    (ctx : DigestCtx) (ms : List SMatch) : ∀ (acc : DigestAcc) (K : String), K ∈ acc.seen →
    countKeyM (ms.foldl (fun a m => processMentionMatch pf tOr ctx m a) acc).mentions K
      = countKeyM acc.mentions K := by
  induction ms with
  | nil => intro acc K _; rfl
  | cons m rest ih =>
    intro acc K h
    rw [List.foldl_cons]
    by_cases hne : msgKey m = K
    · rcases pm_shape pf tOr ctx m acc with ⟨_, he⟩ | ⟨hnot, _, _, _⟩
      · rw [he]
        exact ih acc K h
      · exact absurd (hne ▸ h) hnot
    · rw [ih _ K ((pm_count_other pf tOr ctx m acc K hne).2.mpr h)]
      exact (pm_count_other pf tOr ctx m acc K hne).1

lemma pm_fold_first (pf : String → ℚ) (tOr : String → String → Option (List TMsg))
    (ctx : DigestCtx) (ms : List SMatch) : ∀ (acc : DigestAcc) (K : String),
    (∀ m ∈ ms, msgKey m = K →
      ¬ (m.user = some ctx.user_id ∨ m.username = some ctx.username)) →
    K ∉ acc.seen → (∃ m ∈ ms, msgKey m = K) →
    countKeyM (ms.foldl (fun a m => processMentionMatch pf tOr ctx m a) acc).mentions K
      = countKeyM acc.mentions K + 1
    ∧ K ∈ (ms.foldl (fun a m => processMentionMatch pf tOr ctx m a) acc).seen := by
  induction ms with
  | nil =>
    intro acc K _ _ hex
    simp at hex
  | cons m rest ih =>
    intro acc K hall hK hex
    rw [List.foldl_cons]
    by_cases heq : msgKey m = K
    · have hfirst := pm_count_first pf tOr ctx m acc K heq hK
        (hall m (List.mem_cons_self m rest) heq)
      rw [pm_fold_seen_count pf tOr ctx rest _ K hfirst.2, hfirst.1]
      exact ⟨rfl, pm_fold_seen pf tOr ctx rest _ K hfirst.2⟩
    · have hother := pm_count_other pf tOr ctx m acc K heq
      have hex' : ∃ m' ∈ rest, msgKey m' = K := by
        rcases hex with ⟨m', hm', hkey⟩
        rcases List.mem_cons.mp hm' with rfl | hmem
        · exact absurd hkey heq
        · exact ⟨m', hmem, hkey⟩
      have := ih _ K (fun m' hm' => hall m' (List.mem_cons_of_mem m hm'))
        (fun hmem => hK (hother.2.mp hmem)) hex'
      rw [this.1, hother.1]
      exact ⟨rfl, this.2⟩

/-- One reply-collection step never adds an entry whose key is already in
`seen`, keeps `seen` growing, and never touches the mentions list. -/
lemma ptm_step (pf : String → ℚ) (ctx : DigestCtx) (ft : ℚ) (cid cname : String)
    (tts : Option String) (tm : TMsg) (acc : DigestAcc) (K : String) (hK : K ∈ acc.seen) :
    countKeyR (processThreadMsg pf ctx ft cid cname tts tm acc).replies K
      = countKeyR acc.replies K
    ∧ K ∈ (processThreadMsg pf ctx ft cid cname tts tm acc).seen
    ∧ (processThreadMsg pf ctx ft cid cname tts tm acc).mentions = acc.mentions := by
  unfold processThreadMsg
  by_cases h1 : (tm.user == some ctx.user_id) = true
  · simp only [if_pos h1]
    exact ⟨by simp, hK, by simp⟩
  · simp only [if_neg h1]
    by_cases h2 : tsValOf pf tm.ts < ft
    · simp only [if_pos h2]
      exact ⟨by simp, hK, by simp⟩
    · simp only [if_neg h2]
      by_cases h3 : acc.seen.contains (cid ++ ":" ++ fmtOpt tm.ts) = true
      · simp only [if_pos h3]
        exact ⟨by simp, hK, by simp⟩
      · simp only [if_neg h3]
        have hKne : K ≠ cid ++ ":" ++ fmtOpt tm.ts := by
          intro hkk
          exact h3 (by rw [← hkk]; simpa using hK)
        by_cases h4 : pyBlank tm.text = true
        · simp only [if_pos h4]
          exact ⟨by simp, List.mem_append_left _ hK, by simp⟩
        · simp only [if_neg h4]
          by_cases h5 : (pyContains tm.text " has joined the channel"
              || pyContains tm.text " has left the channel") = true
          · simp only [if_pos h5]
            exact ⟨by simp, List.mem_append_left _ hK, by simp⟩
          · simp only [if_neg h5]
            refine ⟨?_, List.mem_append_left _ hK, by simp⟩
            unfold countKeyR
            rw [List.countP_append]
            have hne2 : ((cid ++ ":" ++ fmtOpt tm.ts : String) == K) = false :=
              beq_eq_false_iff_ne.mpr (fun h => hKne h.symm)
            simp [List.countP_cons, ReplyEntry.entryKey, hne2]

lemma ptm_fold (pf : String → ℚ) (ctx : DigestCtx) (ft : ℚ) (cid cname : String)
    (tts : Option String) (tms : List TMsg) :
    ∀ (acc : DigestAcc) (K : String), K ∈ acc.seen →
    countKeyR ((tms.foldl
        (fun a tm => processThreadMsg pf ctx ft cid cname tts tm a) acc)).replies K
      = countKeyR acc.replies K
    ∧ K ∈ (tms.foldl (fun a tm => processThreadMsg pf ctx ft cid cname tts tm a) acc).seen
    ∧ (tms.foldl (fun a tm => processThreadMsg pf ctx ft cid cname tts tm a) acc).mentions
        = acc.mentions := by
  induction tms with
  | nil => intro acc K hK; exact ⟨rfl, hK, rfl⟩
  | cons tm rest ih =>
    intro acc K hK
    have hstep := ptm_step pf ctx ft cid cname tts tm acc K hK
    have hrec := ih (processThreadMsg pf ctx ft cid cname tts tm acc) K hstep.2.1
    rw [List.foldl_cons]
    exact ⟨hrec.1.trans hstep.1, hrec.2.1, hrec.2.2.trans hstep.2.2⟩

lemma prm_step (pf : String → ℚ) (tOr : String → String → Option (List TMsg))
    (ctx : DigestCtx) (ft : ℚ) (m : SMatch) (p : DigestAcc × List String) (K : String)
    (hK : K ∈ p.1.seen) :
    countKeyR (processReplyMatch pf tOr ctx ft m p).1.replies K = countKeyR p.1.replies K
    ∧ K ∈ (processReplyMatch pf tOr ctx ft m p).1.seen
    ∧ (processReplyMatch pf tOr ctx ft m p).1.mentions = p.1.mentions := by
  obtain ⟨acc, tc⟩ := p
  unfold processReplyMatch
  by_cases h1 : ¬ (strTruthy m.channel_id = true ∧ strTruthy (pyOr m.thread_ts m.ts) = true)
  · simp only [if_pos h1]
    exact ⟨by simp, hK, by simp⟩
  · simp only [if_neg h1]
    by_cases h2 : tc.contains
        (fmtOpt m.channel_id ++ ":" ++ fmtOpt (pyOr m.thread_ts m.ts)) = true
    · simp only [if_pos h2]
      exact ⟨by simp, hK, by simp⟩
    · simp only [if_neg h2]
      cases tOr (fmtOpt m.channel_id) (fmtOpt (pyOr m.thread_ts m.ts)) with
      | none => exact ⟨by simp, hK, by simp⟩
      | some tms =>
        exact ptm_fold pf ctx ft (fmtOpt m.channel_id) (m.channel_name.getD "unknown")
          (pyOr m.thread_ts m.ts) tms _ K hK

lemma prm_fold (pf : String → ℚ) (tOr : String → String → Option (List TMsg))
    (ctx : DigestCtx) (ft : ℚ) (ms : List SMatch) :
    ∀ (p : DigestAcc × List String) (K : String), K ∈ p.1.seen →
    countKeyR ((ms.foldl (fun q m => processReplyMatch pf tOr ctx ft m q) p)).1.replies K
      = countKeyR p.1.replies K
    ∧ K ∈ (ms.foldl (fun q m => processReplyMatch pf tOr ctx ft m q) p).1.seen
    ∧ (ms.foldl (fun q m => processReplyMatch pf tOr ctx ft m q) p).1.mentions
        = p.1.mentions := by
  induction ms with
  | nil => intro p K hK; exact ⟨rfl, hK, rfl⟩
  | cons m rest ih =>
    intro p K hK
    have hstep := prm_step pf tOr ctx ft m p K hK
    have hrec := ih (processReplyMatch pf tOr ctx ft m p) K hstep.2.1
    rw [List.foldl_cons]
    exact ⟨hrec.1.trans hstep.1, hrec.2.1, hrec.2.2.trans hstep.2.2⟩

/-- C8: a message matched by the mention search (at least once, never
self-authored under its key) contributes exactly one entry to the digest, in
the mentions section: the mentions list gains exactly one entry with its dedup
key and the replies list gains none — both for a workspace pass starting from
any accumulator that has not seen the key, and for a whole single-workspace
digest run. -/
theorem digest_dedup (pf : String → ℚ) (tOr : String → String → Option (List TMsg))
    (ctx : DigestCtx) (ft : ℚ) (ms : List SMatch) (ures : DSearchResult) (K : String)
    (acc : DigestAcc) (now0 : ℚ)
    (hex : ∃ m ∈ ms, msgKey m = K)
    (hall : ∀ m ∈ ms, msgKey m = K →
      ¬ (m.user = some ctx.user_id ∨ m.username = some ctx.username))
    (hK : K ∉ acc.seen) :
    (countKeyM (processWorkspace pf tOr ctx ft true (DSearchResult.ok ms) ures acc).mentions K
        = countKeyM acc.mentions K + 1
      ∧ countKeyR (processWorkspace pf tOr ctx ft true (DSearchResult.ok ms) ures acc).replies K
        = countKeyR acc.replies K)
    ∧ (countKeyM (run_digest_ws pf tOr ctx ft true (DSearchResult.ok ms) ures now0).mentions K
        = 1
      ∧ countKeyR (run_digest_ws pf tOr ctx ft true (DSearchResult.ok ms) ures now0).replies K
        = 0) := by
  have main : ∀ a : DigestAcc, K ∉ a.seen →
      countKeyM (processWorkspace pf tOr ctx ft true (DSearchResult.ok ms) ures a).mentions K
        = countKeyM a.mentions K + 1
      ∧ countKeyR (processWorkspace pf tOr ctx ft true (DSearchResult.ok ms) ures a).replies K
        = countKeyR a.replies K := by
    intro a hKa
    unfold processWorkspace
    rw [if_pos rfl]
    have hfold := pm_fold_first pf tOr ctx ms
      { a with now := (a.rl.wait_for_tier3 a.now).1, rl := (a.rl.wait_for_tier3 a.now).2 }
      K hall hKa hex
    have hrepl : countKeyR (ms.foldl (fun x m => processMentionMatch pf tOr ctx m x) { a with now := (a.rl.wait_for_tier3 a.now).1, rl := (a.rl.wait_for_tier3 a.now).2 }).replies K = countKeyR a.replies K := by
      rw [pm_fold_replies]
    cases ures with
    | err e => exact ⟨hfold.1, hrepl⟩
    | ok ms2 =>
      have hpr := prm_fold pf tOr ctx ft ms2
        (let b := ms.foldl (fun x m => processMentionMatch pf tOr ctx m x) { a with now := (a.rl.wait_for_tier3 a.now).1, rl := (a.rl.wait_for_tier3 a.now).2 }
         ({ b with now := (b.rl.wait_for_tier3 b.now).1, rl := (b.rl.wait_for_tier3 b.now).2 }, []))
        K hfold.2
      exact ⟨Eq.trans (congrArg (fun l => countKeyM l K) hpr.2.2) hfold.1,
        Eq.trans hpr.1 hrepl⟩
  refine ⟨main acc hK, ?_⟩
  have h0 := main (initDigestAcc now0) (by simp [initDigestAcc])
  exact ⟨h0.1, h0.2⟩

/-- Witness for `digest_dedup`: one mention match with key `"C1:50.0"`, whose
message also sits in the thread fetched during the replies pass, appears once
in `mentions` and never in `replies`. -/
theorem digest_dedup_witness :
    (∃ m ∈ [(⟨some "C1", some "gen", some "50.0", none, some "U2", some "bob",
        "ping <@U1>", none, []⟩ : SMatch)], msgKey m = "C1:50.0")
    ∧ (∀ m ∈ [(⟨some "C1", some "gen", some "50.0", none, some "U2", some "bob",
        "ping <@U1>", none, []⟩ : SMatch)], msgKey m = "C1:50.0" →
        ¬ (m.user = some "U1" ∨ m.username = some "alice"))
    ∧ ("C1:50.0" ∉ (initDigestAcc 0).seen)
    ∧ countKeyM (run_digest_ws (fun _ => (0:ℚ))
        (fun _ _ => some [⟨some "U2", some "50.0", "ping <@U1>"⟩])
        ⟨"ws", "U1", "alice", []⟩ 0 true
        (DSearchResult.ok [⟨some "C1", some "gen", some "50.0", none, some "U2",
          some "bob", "ping <@U1>", none, []⟩])
        (DSearchResult.ok [⟨some "C1", some "gen", some "50.0", none, some "U1",
          some "alice", "reply", none, []⟩]) 0).mentions "C1:50.0" = 1
    ∧ countKeyR (run_digest_ws (fun _ => (0:ℚ))
        (fun _ _ => some [⟨some "U2", some "50.0", "ping <@U1>"⟩])
        ⟨"ws", "U1", "alice", []⟩ 0 true
        (DSearchResult.ok [⟨some "C1", some "gen", some "50.0", none, some "U2",
          some "bob", "ping <@U1>", none, []⟩])
        (DSearchResult.ok [⟨some "C1", some "gen", some "50.0", none, some "U1",
          some "alice", "reply", none, []⟩]) 0).replies "C1:50.0" = 0 := by
  have h := digest_dedup (fun _ => (0:ℚ))
    (fun _ _ => some [⟨some "U2", some "50.0", "ping <@U1>"⟩])
    ⟨"ws", "U1", "alice", []⟩ 0
    [⟨some "C1", some "gen", some "50.0", none, some "U2", some "bob",
      "ping <@U1>", none, []⟩]
    (DSearchResult.ok [⟨some "C1", some "gen", some "50.0", none, some "U1",
      some "alice", "reply", none, []⟩])
    "C1:50.0" (initDigestAcc 0) 0
    (by decide) (by decide) (by decide)
  exact ⟨by decide, by decide, by decide, h.2.1, h.2.2⟩

-- ==================== Theorems: digest ignores search failures (C9) ====================

lemma wait3_rl_none (now : ℚ) (s : RateLimiter) (h : s.backoff_until = none) :
    (s.wait_for_tier3 now).2.backoff_until = none := by
  show (waitForTier TIER_3_LIMIT now s.tier3_calls s.backoff_until).2.2 = none
  rw [h]
  rfl

lemma wait4_rl_none (now : ℚ) (s : RateLimiter) (h : s.backoff_until = none) :
    (s.wait_for_tier4 now).2.backoff_until = none := by
  show (waitForTier TIER_4_LIMIT now s.tier4_calls s.backoff_until).2.2 = none
  rw [h]
  rfl

lemma pm_rl (pf : String → ℚ) (tOr : String → String → Option (List TMsg))
    (ctx : DigestCtx) (m : SMatch) (acc : DigestAcc) (h : acc.rl.backoff_until = none) :
    (processMentionMatch pf tOr ctx m acc).rl.backoff_until = none
    ∧ (processMentionMatch pf tOr ctx m acc).rl.consecutive_429s
        = acc.rl.consecutive_429s := by
  unfold processMentionMatch
  by_cases hs : acc.seen.contains (fmtOpt m.channel_id ++ ":" ++ fmtOpt m.ts) = true
  · simp only [if_pos hs]
    exact ⟨h, trivial⟩
  · simp only [if_neg hs]
    by_cases hself : (m.user == some ctx.user_id || m.username == some ctx.username) = true
    · simp only [if_pos hself]
      exact ⟨h, trivial⟩
    · simp only [if_neg hself]
      by_cases htr : strTruthy m.channel_id = true ∧ strTruthy (pyOr m.thread_ts m.ts) = true
      · simp only [if_pos htr]
        cases tOr (fmtOpt m.channel_id) (fmtOpt (pyOr m.thread_ts m.ts)) with
        | some msgs => exact ⟨wait4_rl_none acc.now acc.rl h, rfl⟩
        | none => exact ⟨wait4_rl_none acc.now acc.rl h, rfl⟩
      · simp only [if_neg htr]
        exact ⟨h, trivial⟩

lemma pm_fold_rl (pf : String → ℚ) (tOr : String → String → Option (List TMsg))
    (ctx : DigestCtx) (ms : List SMatch) :
    ∀ acc : DigestAcc, acc.rl.backoff_until = none →
    (ms.foldl (fun a m => processMentionMatch pf tOr ctx m a) acc).rl.backoff_until = none
    ∧ (ms.foldl (fun a m => processMentionMatch pf tOr ctx m a) acc).rl.consecutive_429s
        = acc.rl.consecutive_429s := by
  induction ms with
  | nil => intro acc h; exact ⟨h, rfl⟩
  | cons m rest ih =>
    intro acc h
    have hstep := pm_rl pf tOr ctx m acc h
    have hrec := ih _ hstep.1
    rw [List.foldl_cons]
    exact ⟨hrec.1, hrec.2.trans hstep.2⟩

lemma ptm_rl (pf : String → ℚ) (ctx : DigestCtx) (ft : ℚ) (cid cname : String)
    (tts : Option String) (tm : TMsg) (acc : DigestAcc) :
    (processThreadMsg pf ctx ft cid cname tts tm acc).rl = acc.rl := by
  unfold processThreadMsg
  by_cases h1 : (tm.user == some ctx.user_id) = true
  · simp only [if_pos h1]
  · simp only [if_neg h1]
    by_cases h2 : tsValOf pf tm.ts < ft
    · simp only [if_pos h2]
    · simp only [if_neg h2]
      by_cases h3 : acc.seen.contains (cid ++ ":" ++ fmtOpt tm.ts) = true
      · simp only [if_pos h3]
      · simp only [if_neg h3]
        by_cases h4 : pyBlank tm.text = true
        · simp only [if_pos h4]
        · simp only [if_neg h4]
          by_cases h5 : (pyContains tm.text " has joined the channel"
              || pyContains tm.text " has left the channel") = true
          · simp only [if_pos h5]
          · simp only [if_neg h5]

lemma ptm_fold_rl (pf : String → ℚ) (ctx : DigestCtx) (ft : ℚ) (cid cname : String)
    (tts : Option String) (tms : List TMsg) :
    ∀ acc : DigestAcc,
    (tms.foldl (fun a tm => processThreadMsg pf ctx ft cid cname tts tm a) acc).rl
      = acc.rl := by
  induction tms with
  | nil => intro acc; rfl
  | cons tm rest ih =>
    intro acc
    rw [List.foldl_cons, ih, ptm_rl]

lemma prm_rl (pf : String → ℚ) (tOr : String → String → Option (List TMsg))
    (ctx : DigestCtx) (ft : ℚ) (m : SMatch) (p : DigestAcc × List String)
    (h : p.1.rl.backoff_until = none) :
    (processReplyMatch pf tOr ctx ft m p).1.rl.backoff_until = none
    ∧ (processReplyMatch pf tOr ctx ft m p).1.rl.consecutive_429s
        = p.1.rl.consecutive_429s := by
  obtain ⟨acc, tc⟩ := p
  unfold processReplyMatch
  by_cases h1 : ¬ (strTruthy m.channel_id = true ∧ strTruthy (pyOr m.thread_ts m.ts) = true)
  · simp only [if_pos h1]
    exact ⟨h, trivial⟩
  · simp only [if_neg h1]
    by_cases h2 : tc.contains
        (fmtOpt m.channel_id ++ ":" ++ fmtOpt (pyOr m.thread_ts m.ts)) = true
    · simp only [if_pos h2]
      exact ⟨h, trivial⟩
    · simp only [if_neg h2]
      cases tOr (fmtOpt m.channel_id) (fmtOpt (pyOr m.thread_ts m.ts)) with
      | none => exact ⟨wait4_rl_none acc.now acc.rl h, rfl⟩
      | some tms =>
        rw [ptm_fold_rl]
        exact ⟨wait4_rl_none acc.now acc.rl h, rfl⟩

lemma prm_fold_rl (pf : String → ℚ) (tOr : String → String → Option (List TMsg))
    (ctx : DigestCtx) (ft : ℚ) (ms : List SMatch) :
    ∀ (p : DigestAcc × List String), p.1.rl.backoff_until = none →
    (ms.foldl (fun q m => processReplyMatch pf tOr ctx ft m q) p).1.rl.backoff_until = none
    ∧ (ms.foldl (fun q m => processReplyMatch pf tOr ctx ft m q) p).1.rl.consecutive_429s
        = p.1.rl.consecutive_429s := by
  induction ms with
  | nil => intro p h; exact ⟨h, rfl⟩
  | cons m rest ih =>
    intro p h
    have hstep := prm_rl pf tOr ctx ft m p h
    have hrec := ih _ hstep.1
    rw [List.foldl_cons]
    exact ⟨hrec.1, hrec.2.trans hstep.2⟩

lemma processWorkspace_rl (pf : String → ℚ) (tOr : String → String → Option (List TMsg))
    (ctx : DigestCtx) (ft : ℚ) (inc : Bool) (mres ures : DSearchResult)
    (acc : DigestAcc) (h : acc.rl.backoff_until = none) :
    (processWorkspace pf tOr ctx ft inc mres ures acc).rl.backoff_until = none
    ∧ (processWorkspace pf tOr ctx ft inc mres ures acc).rl.consecutive_429s
        = acc.rl.consecutive_429s := by
  have sec2 : ∀ (b : DigestAcc), b.rl.backoff_until = none →
      b.rl.consecutive_429s = acc.rl.consecutive_429s →
      ((match ures with
        | DSearchResult.ok ms =>
            (ms.foldl (fun q m => processReplyMatch pf tOr ctx ft m q)
              ({ b with now := (b.rl.wait_for_tier3 b.now).1,
                        rl := (b.rl.wait_for_tier3 b.now).2 }, [])).1
        | DSearchResult.err _ =>
            { b with now := (b.rl.wait_for_tier3 b.now).1,
                     rl := (b.rl.wait_for_tier3 b.now).2 }) : DigestAcc).rl.backoff_until = none
      ∧ ((match ures with
        | DSearchResult.ok ms =>
            (ms.foldl (fun q m => processReplyMatch pf tOr ctx ft m q)
              ({ b with now := (b.rl.wait_for_tier3 b.now).1,
                        rl := (b.rl.wait_for_tier3 b.now).2 }, [])).1
        | DSearchResult.err _ =>
            { b with now := (b.rl.wait_for_tier3 b.now).1,
                     rl := (b.rl.wait_for_tier3 b.now).2 }) : DigestAcc).rl.consecutive_429s
          = acc.rl.consecutive_429s := by
    intro b hb hc
    cases ures with
    | ok ms =>
      have hfold := prm_fold_rl pf tOr ctx ft ms
        ({ b with now := (b.rl.wait_for_tier3 b.now).1,
                  rl := (b.rl.wait_for_tier3 b.now).2 }, [])
        (wait3_rl_none b.now b.rl hb)
      exact ⟨hfold.1, hfold.2.trans hc⟩
    | err e =>
      exact ⟨wait3_rl_none b.now b.rl hb, hc⟩
  unfold processWorkspace
  cases inc with
  | true =>
    rw [if_pos rfl]
    cases mres with
    | ok ms =>
      have h1 := pm_fold_rl pf tOr ctx ms
        { acc with now := (acc.rl.wait_for_tier3 acc.now).1,
                   rl := (acc.rl.wait_for_tier3 acc.now).2 }
        (wait3_rl_none acc.now acc.rl h)
      exact sec2 _ h1.1 h1.2
    | err e =>
      exact sec2 _ (wait3_rl_none acc.now acc.rl h) rfl
  | false =>
    rw [if_neg (by decide)]
    exact sec2 acc h rfl

/-- C9: a digest search whose `ok` is false — any error, `ratelimited`
included — is silently ignored: the workspace pass is identical to one whose
search returned zero matches (no retry, no error recorded, zero entries from
that query), and no backoff is ever triggered: starting with no backoff
deadline, the limiter ends the pass with no deadline and an unchanged
`consecutive_429s` counter; a whole digest run ends with no deadline and a
zero counter. -/
theorem digest_search_failures_ignored (pf : String → ℚ)
    (tOr : String → String → Option (List TMsg)) (ctx : DigestCtx) (ft : ℚ)
    (inc : Bool) (mres ures : DSearchResult) (acc : DigestAcc) (e1 e2 : String)
    (now0 : ℚ) (h : acc.rl.backoff_until = none) :
    processWorkspace pf tOr ctx ft inc (DSearchResult.err e1) ures acc
      = processWorkspace pf tOr ctx ft inc (DSearchResult.ok []) ures acc
    ∧ processWorkspace pf tOr ctx ft inc mres (DSearchResult.err e2) acc
      = processWorkspace pf tOr ctx ft inc mres (DSearchResult.ok []) acc
    ∧ ((processWorkspace pf tOr ctx ft inc mres ures acc).rl.backoff_until = none
        ∧ (processWorkspace pf tOr ctx ft inc mres ures acc).rl.consecutive_429s
            = acc.rl.consecutive_429s)
    ∧ ((run_digest_ws pf tOr ctx ft inc mres ures now0).rl.backoff_until = none
        ∧ (run_digest_ws pf tOr ctx ft inc mres ures now0).rl.consecutive_429s = 0) := by
  refine ⟨?_, ?_, processWorkspace_rl pf tOr ctx ft inc mres ures acc h, ?_⟩
  · cases inc <;> rfl
  · cases inc <;> rfl
  · have h0 := processWorkspace_rl pf tOr ctx ft inc mres ures (initDigestAcc now0) rfl
    exact ⟨h0.1, h0.2⟩

/-- Witness for `digest_search_failures_ignored`: a fresh digest run whose two
searches both fail with `ratelimited` ends with no backoff deadline and a zero
`consecutive_429s` counter. -/
theorem digest_search_failures_ignored_witness :
    (initDigestAcc 0).rl.backoff_until = none
    ∧ ((run_digest_ws (fun _ => (0:ℚ)) (fun _ _ => none) ⟨"ws", "U1", "alice", []⟩ 0 true
          (DSearchResult.err "ratelimited") (DSearchResult.err "ratelimited")
          0).rl.backoff_until = none
        ∧ (run_digest_ws (fun _ => (0:ℚ)) (fun _ _ => none) ⟨"ws", "U1", "alice", []⟩ 0 true
          (DSearchResult.err "ratelimited") (DSearchResult.err "ratelimited")
          0).rl.consecutive_429s = 0) :=
  ⟨rfl, (digest_search_failures_ignored (fun _ => (0:ℚ)) (fun _ _ => none)
      ⟨"ws", "U1", "alice", []⟩ 0 true (DSearchResult.err "ratelimited")
      (DSearchResult.err "ratelimited") (initDigestAcc 0) "ratelimited" "ratelimited"
      0 rfl).2.2.2⟩

end SlackClient
